import Mathlib

/-!
Verification development for the QuickJS stand-alone interpreter front-end
(`qjs.c`).  The file gives a shallow embedding of the host-shell code —
the tracing allocator, the size parser, the hand-rolled argument parser,
the eval pipeline and the runtime driver — and proves the testable
properties of its specification against that embedding.

C strings are modelled as lists of byte values (`List Nat`); the NUL
terminator is the end of the list.  `size_t` arithmetic is modelled as
natural-number arithmetic modulo `2 ^ 64`.  Engine entry points that are
not part of `qjs.c` (the QuickJS library itself and libc) are modelled as
oracle parameters; calls into them are recorded in explicit traces.
-/

namespace Qjs

/-! ### size_t arithmetic (64-bit, wrapping) -/

/-- Modulus of `size_t` arithmetic on the (64-bit) target, `2 ^ 64`
written as a numeral so that arithmetic on it reduces fast. -/
def SIZE_W : Nat := 18446744073709551616

/-- Wrapping `size_t` addition. -/
def wadd (a b : Nat) : Nat := (a + b) % SIZE_W

/-- Wrapping `size_t` subtraction (two's-complement wrap-around). -/
def wsub (a b : Nat) : Nat := (a + (SIZE_W - b % SIZE_W)) % SIZE_W

/-! ### Tracing allocator (qjs.c lines 116-258)

`JSMallocState` is the accounting state the allocator callbacks receive
(`malloc_count`, `malloc_size`, `malloc_limit` in quickjs).  The
underlying platform `malloc`/`realloc` is nondeterministic; each call
takes a response oracle `resp : Option (Nat × Nat)` giving the returned
pointer and its `malloc_usable_size`, or `none` when the platform
allocator fails.  The usable size of an existing block
(`js_trace_malloc_usable_size(ptr)`) is passed explicitly where the C
code queries it.  Trace output produced by `js_trace_malloc_printf` is
returned as a list of `TraceLine`s. -/

/-- `MALLOC_OVERHEAD` for the non-Apple branch (qjs.c line 119). -/
def MALLOC_OVERHEAD : Nat := 8

structure JSMallocState where
  malloc_count : Nat
  malloc_size : Nat
  malloc_limit : Nat
deriving DecidableEq

/-- One line of trace output on stdout.  Pointers are recorded together
with their usable size, mirroring the `%p` rendering
`H%+06lld.%zd` (offset plus usable size); `none` renders as `NULL`. -/
inductive TraceLine where
  /-- `A <size> -> <ptr>` from `js_trace_malloc`. -/
  | lineA (size : Nat) (res : Option (Nat × Nat))
  /-- `F <ptr>` from `js_trace_free`. -/
  | lineF (p u : Nat)
  /-- `R <size> <ptr>` from the realloc-to-zero branch. -/
  | lineRfree (size p u : Nat)
  /-- `R <size> <ptr> -> <ptr>` from `js_trace_realloc`. -/
  | lineR (size p u : Nat) (res : Option (Nat × Nat))
deriving DecidableEq

/-- Result of one allocator callback: either the C `assert` fired
(aborting the process), or the call returns with a new accounting state,
a returned pointer (`none` = `NULL`) and the trace lines emitted. -/
inductive CallResult where
  | assertFail
  | ret (s : JSMallocState) (p : Option Nat) (out : List TraceLine)
deriving DecidableEq

/-- `js_trace_malloc` (qjs.c lines 194-210).  Asserts `size != 0`,
refuses when `malloc_size + size > malloc_limit` without calling the
platform allocator, otherwise calls `malloc` (the oracle `resp`), prints
the trace line, and on success accounts `usable + MALLOC_OVERHEAD`. -/
def js_trace_malloc (s : JSMallocState) (size : Nat) (resp : Option (Nat × Nat)) :
    CallResult :=
  if size = 0 then .assertFail
  else if wadd s.malloc_size size > s.malloc_limit then .ret s none []
  else
    match resp with
    | none => .ret s none [.lineA size none]
    | some (p, u) =>
        .ret
          { malloc_count := wadd s.malloc_count 1
            malloc_size := wadd s.malloc_size (u + MALLOC_OVERHEAD)
            malloc_limit := s.malloc_limit }
          (some p) [.lineA size (some (p, u))]

/-- `js_trace_free` (qjs.c lines 212-221).  A null pointer returns
immediately with no trace line and no accounting change; otherwise the
block's `usable` size (the `js_trace_malloc_usable_size(ptr)` query) plus
`MALLOC_OVERHEAD` is subtracted and the count decremented. -/
def js_trace_free (s : JSMallocState) (p : Option Nat) (usable : Nat) :
    JSMallocState × List TraceLine :=
  match p with
  | none => (s, [])
  | some q =>
      ({ malloc_count := wsub s.malloc_count 1
         malloc_size := wsub s.malloc_size (usable + MALLOC_OVERHEAD)
         malloc_limit := s.malloc_limit }, [.lineF q usable])

/-- `js_trace_realloc` (qjs.c lines 223-251).  `old_size` is the value of
the `js_trace_malloc_usable_size(ptr)` query for a non-null `p` (never
queried when `p = none`).  A null pointer with `size = 0` returns `NULL`
without calling anything; a null pointer otherwise behaves as
`js_trace_malloc`; `size = 0` on a live block frees it; a growth past the
cap is refused before calling the platform `realloc`. -/
def js_trace_realloc (s : JSMallocState) (p : Option Nat) (old_size size : Nat)
    (resp : Option (Nat × Nat)) : CallResult :=
  match p with
  | none => if size = 0 then .ret s none [] else js_trace_malloc s size resp
  | some q =>
      if size = 0 then
        .ret
          { malloc_count := wsub s.malloc_count 1
            malloc_size := wsub s.malloc_size (old_size + MALLOC_OVERHEAD)
            malloc_limit := s.malloc_limit }
          none [.lineRfree size q old_size]
      else if wsub (wadd s.malloc_size size) old_size > s.malloc_limit then
        .ret s none []
      else
        match resp with
        | none => .ret s none [.lineR size q old_size none]
        | some (q2, u2) =>
            .ret
              { malloc_count := s.malloc_count
                malloc_size := wadd s.malloc_size (wsub u2 old_size)
                malloc_limit := s.malloc_limit }
              (some q2) [.lineR size q old_size (some (q2, u2))]

/-! ### Allocator machine: sequences of calls

The machine pairs the accounting state with the set of live blocks
(pointer, usable size), so that the `usable_size` queries of
`js_trace_free` / `js_trace_realloc` can be resolved and the platform
allocator's freshness contract can be enforced.  `stepOp` returns `none`
for runs outside the C contract (assert failure, freeing a dead pointer,
or a bogus platform response). -/

structure AllocMachine where
  st : JSMallocState
  heap : List (Nat × Nat)
deriving DecidableEq

/-- Usable size of a live block, `none` if the pointer is not live. -/
def heapFind (h : List (Nat × Nat)) (p : Nat) : Option Nat :=
  match h with
  | [] => none
  | (q, u) :: t => if q = p then some u else heapFind t p

/-- A platform `malloc` response is valid when it is a failure or a
fresh non-null pointer. -/
def freshResp (h : List (Nat × Nat)) (resp : Option (Nat × Nat)) : Bool :=
  match resp with
  | none => true
  | some (p, _) => p != 0 && (heapFind h p).isNone

/-- One `js_trace_malloc` call at machine level. -/
def stepMalloc (m : AllocMachine) (size : Nat) (resp : Option (Nat × Nat)) :
    Option (AllocMachine × Option Nat) :=
  if freshResp m.heap resp then
    match js_trace_malloc m.st size resp, resp with
    | .assertFail, _ => none
    | .ret s' none _, _ => some ({ st := s', heap := m.heap }, none)
    | .ret s' (some p) _, some (_, u) =>
        some ({ st := s', heap := (p, u) :: m.heap }, some p)
    | .ret _ (some _) _, none => none
  else none

/-- One allocator operation together with its platform-allocator oracle. -/
inductive AllocOp where
  | opMalloc (size : Nat) (resp : Option (Nat × Nat))
  | opFree (p : Option Nat)
  | opRealloc (p : Option Nat) (size : Nat) (resp : Option (Nat × Nat))
deriving DecidableEq

/-- A platform `realloc` response is valid when it fails or returns the
same pointer or a fresh non-null one. -/
def reallocRespOk (h : List (Nat × Nat)) (p : Nat) (resp : Option (Nat × Nat)) : Bool :=
  match resp with
  | none => true
  | some (q2, _) => q2 == p || (q2 != 0 && (heapFind h q2).isNone)

/-- One step of the allocator machine. -/
def stepOp (m : AllocMachine) (op : AllocOp) : Option (AllocMachine × Option Nat) :=
  match op with
  | .opMalloc size resp => stepMalloc m size resp
  | .opFree pOpt =>
      match pOpt with
      | none => some ({ st := (js_trace_free m.st none 0).1, heap := m.heap }, none)
      | some p =>
          match heapFind m.heap p with
          | none => none
          | some u =>
              some ({ st := (js_trace_free m.st (some p) u).1,
                      heap := m.heap.filter (fun e => e.1 != p) }, none)
  | .opRealloc pOpt size resp =>
      match pOpt with
      | none => if size = 0 then some (m, none) else stepMalloc m size resp
      | some p =>
          match heapFind m.heap p with
          | none => none
          | some old =>
              if size = 0 then
                match js_trace_realloc m.st (some p) old 0 resp with
                | .ret s' none _ =>
                    some ({ st := s', heap := m.heap.filter (fun e => e.1 != p) }, none)
                | _ => none
              else if reallocRespOk m.heap p resp then
                match js_trace_realloc m.st (some p) old size resp, resp with
                | .ret s' none _, _ => some ({ st := s', heap := m.heap }, none)
                | .ret s' (some q2) _, some (_, u2) =>
                    some ({ st := s',
                            heap := (q2, u2) :: m.heap.filter (fun e => e.1 != p) },
                          some q2)
                | .ret _ (some _) _, none => none
                | .assertFail, _ => none
              else none

/-- Run a sequence of allocator operations. -/
def runOps (m : AllocMachine) : List AllocOp → Option AllocMachine
  | [] => some m
  | op :: ops =>
      match stepOp m op with
      | none => none
      | some (m', _) => runOps m' ops

/-- The allocator state before the first allocation, with byte cap
`limit`. -/
def initMachine (limit : Nat) : AllocMachine :=
  { st := { malloc_count := 0, malloc_size := 0, malloc_limit := limit }, heap := [] }

/-! ### Size parser (qjs.c lines 260-284) -/

/-- The byte is an ASCII decimal digit. -/
def isDigitByte (c : Nat) : Bool := 48 ≤ c && c ≤ 57

/-- Parse a maximal run of leading decimal digits, Horner-style, starting
from accumulator `acc`; returns the value and the unconsumed rest. -/
def parseDigitsAux : List Nat → Nat → Nat × List Nat
  | [], acc => (acc, [])
  | c :: cs, acc =>
      if isDigitByte c then parseDigitsAux cs (acc * 10 + (c - 48)) else (acc, c :: cs)

/-- Drop a leading run of decimal digits. -/
def dropDigits : List Nat → List Nat
  | [] => []
  | c :: cs => if isDigitByte c then dropDigits cs else c :: cs

/-- Modelled from the spec: libc `strtod` followed by the `(size_t)` cast,
which are not part of `src/`.  Per the spec's size-parser section it
parses a leading unsigned decimal, a fractional part is tolerated and
truncated by the cast, and the out-parameter `p` points at the first
unconsumed character.  (Signs, whitespace, exponents and hexadecimal
floats accepted by full `strtod` are outside the inputs this model is
used on; on a decimal-integer prefix below `2 ^ 53` real `strtod` is
exact, so the model agrees with the C code there.)  Returns the integer
value and the unconsumed rest of the string. -/
def strtodInt (s : List Nat) : Nat × List Nat :=
  let (v, r) := parseDigitsAux s 0
  match r with
  | c :: r' => if c = 46 then (v, dropDigits r') else (v, r)
  | [] => (v, [])

/-- `get_suffixed_size` (qjs.c lines 260-284).  `none` models the
`fprintf(stderr, "qjs: invalid suffix: %s", p)` followed by `exit(1)`;
the suffix switch inspects only the first unconsumed character (71 `G`,
77 `M`, 107 `k`, 75 `K`), and anything following a recognized suffix
character is ignored. -/
def get_suffixed_size (str : List Nat) : Option Nat :=
  let (v0, p) := strtodInt str
  let v := v0 % SIZE_W
  match p with
  | 71 :: _ => some ((v <<< 30) % SIZE_W)
  | 77 :: _ => some ((v <<< 20) % SIZE_W)
  | 107 :: _ => some ((v <<< 10) % SIZE_W)
  | 75 :: _ => some ((v <<< 10) % SIZE_W)
  | [] => some v
  | _ => none

/-! #### Decimal rendering (input description of the round-trip claim) -/

/-- Digit-producing loop, fuel-indexed so that it is structural (the fuel
is always at least the number of digits where it is used). -/
def renderDecCore : Nat → Nat → List Nat → List Nat
  | 0, _, acc => acc
  | fuel + 1, n, acc =>
      if n = 0 then acc else renderDecCore fuel (n / 10) ((48 + n % 10) :: acc)

/-- The decimal rendering of `n` as a byte string (most significant digit
first); `0` renders as `"0"`. -/
def renderDec (n : Nat) : List Nat :=
  if n = 0 then [48] else renderDecCore (n + 1) n []

/-! ### String constants of qjs.c, as byte lists -/

/-- Bytes of `"help"`. -/
def bHelp : List Nat := [104, 101, 108, 112]

/-- Bytes of `"eval"`. -/
def bEval : List Nat := [101, 118, 97, 108]

/-- Bytes of `"include"`. -/
def bInclude : List Nat := [105, 110, 99, 108, 117, 100, 101]

/-- Bytes of `"interactive"`. -/
def bInteractive : List Nat := [105, 110, 116, 101, 114, 97, 99, 116, 105, 118, 101]

/-- Bytes of `"module"`. -/
def bModule : List Nat := [109, 111, 100, 117, 108, 101]

/-- Bytes of `"script"`. -/
def bScript : List Nat := [115, 99, 114, 105, 112, 116]

/-- Bytes of `"dump"`. -/
def bDump : List Nat := [100, 117, 109, 112]

/-- Bytes of `"trace"`. -/
def bTrace : List Nat := [116, 114, 97, 99, 101]

/-- Bytes of `"std"`. -/
def bStd : List Nat := [115, 116, 100]

/-- Bytes of `"no-unhandled-rejection"`. -/
def bNoUnhandledRejection : List Nat :=
  [110, 111, 45, 117, 110, 104, 97, 110, 100, 108, 101, 100, 45, 114, 101, 106, 101,
   99, 116, 105, 111, 110]

/-- Bytes of `"quit"`. -/
def bQuit : List Nat := [113, 117, 105, 116]

/-- Bytes of `"memory-limit"`. -/
def bMemoryLimit : List Nat := [109, 101, 109, 111, 114, 121, 45, 108, 105, 109, 105, 116]

/-- Bytes of `"stack-size"`. -/
def bStackSize : List Nat := [115, 116, 97, 99, 107, 45, 115, 105, 122, 101]

/-- Bytes of `"strip-source"`. -/
def bStripSource : List Nat := [115, 116, 114, 105, 112, 45, 115, 111, 117, 114, 99, 101]

/-- Bytes of `".mjs"`. -/
def bMjs : List Nat := [46, 109, 106, 115]

/-- Bytes of `"<cmdline>"`. -/
def bCmdline : List Nat := [60, 99, 109, 100, 108, 105, 110, 101, 62]

/-- Bytes of `"<input>"`. -/
def bInput : List Nat := [60, 105, 110, 112, 117, 116, 62]

/-- Bytes of the synthetic module source evaluated for `--std`
(qjs.c lines 480-483): it publishes the `std` and `os` modules as
globals. -/
def bStdSource : List Nat :=
  [105, 109, 112, 111, 114, 116, 32, 42, 32, 97, 115, 32, 115, 116, 100, 32, 102, 114,
   111, 109, 32, 39, 115, 116, 100, 39, 59, 10, 105, 109, 112, 111, 114, 116, 32, 42,
   32, 97, 115, 32, 111, 115, 32, 102, 114, 111, 109, 32, 39, 111, 115, 39, 59, 10,
   103, 108, 111, 98, 97, 108, 84, 104, 105, 115, 46, 115, 116, 100, 32, 61, 32, 115,
   116, 100, 59, 10, 103, 108, 111, 98, 97, 108, 84, 104, 105, 115, 46, 111, 115, 32,
   61, 32, 111, 115, 59, 10]

/-! ### Argument parser (qjs.c lines 310-442)

The local variables of `main` that the option loop mutates are collected
in `MainState`; the loop itself is `parseLoop` (fuel-indexed on the
number of remaining tokens, each outer iteration consumes at least one
token).  The inner `for (; *arg || *longopt; longopt = "")` loop runs
either over the packed short-option characters (with `longopt` empty
throughout) or exactly once for a long option (with `arg` empty), so it
is embedded as the two functions `scanShorts` and `scanLong`. -/

/-- Engine constant `JS_STRIP_DEBUG`.  Modelled from the spec: the strip
flag values live in the engine header, not in `src/`; only distinctness
from `0` and from each other matters here. -/
def JS_STRIP_DEBUG : Nat := 1

/-- Engine constant `JS_STRIP_SOURCE`.  Modelled from the spec, as for
`JS_STRIP_DEBUG`. -/
def JS_STRIP_SOURCE : Nat := 2

/-- The option-controlled local variables of `main`
(qjs.c lines 316-328).  Counters bumped with `++` in C are `Nat`;
`module` is the C tri-state `int` (−1 autodetect, 0 script, 1 module). -/
structure MainState where
  expr : Option (List Nat)
  interactive : Nat
  dump_memory : Nat
  trace_memory : Nat
  empty_run : Nat
  module : Int
  load_std : Bool
  dump_unhandled_promise_rejection : Bool
  memory_limit : Nat
  include_list : List (List Nat)
  strip_flags : Nat
  stack_size : Nat
deriving DecidableEq

/-- Initial values of the option variables (qjs.c lines 316-328). -/
def initMainState : MainState :=
  { expr := none, interactive := 0, dump_memory := 0, trace_memory := 0,
    empty_run := 0, module := -1, load_std := false,
    dump_unhandled_promise_rejection := true, memory_limit := 0,
    include_list := [], strip_flags := 0, stack_size := 0 }

/-- Result of the inner option-scanning loop: a process exit (with exit
code, whether a diagnostic went to stderr, and whether the usage text was
printed by `help()`), or continuation with `k` extra argv tokens consumed
as option arguments. -/
inductive ScanResult where
  | exitR (code : Nat) (diag hlp : Bool)
  | cont (k : Nat) (st : MainState)
deriving DecidableEq

/-- Add `n` to the consumed-token count of a continuation. -/
def addConsumed (n : Nat) : ScanResult → ScanResult
  | .exitR c d h => .exitR c d h
  | .cont k st => .cont (n + k) st

/-- The inner option loop for a packed short-option token
(qjs.c lines 347-441 with `longopt` empty).  `arg` holds the characters
after the ones already consumed, `rest` the argv tokens after the current
one.  `-e` takes the remainder of the token as an inline argument, else
the next token; `-I` always takes the next token.  An unknown character
prints a diagnostic and invokes `help()` (exit 1). -/
def scanShorts : List Nat → List (List Nat) → MainState → ScanResult
  | [], _, st => .cont 0 st
  | c :: arg, rest, st =>
      if c = 104 ∨ c = 63 then .exitR 1 false true
      else if c = 101 then
        match arg with
        | _ :: _ => .cont 0 { st with expr := some arg }
        | [] =>
            match rest with
            | a :: _ => .cont 1 { st with expr := some a }
            | [] => .exitR 2 true false
      else if c = 73 then
        match rest with
        | [] => .exitR 1 true false
        | a :: rest' =>
            if 32 ≤ st.include_list.length then .exitR 1 true false
            else
              addConsumed 1
                (scanShorts arg rest' { st with include_list := st.include_list ++ [a] })
      else if c = 105 then scanShorts arg rest { st with interactive := st.interactive + 1 }
      else if c = 109 then scanShorts arg rest { st with module := 1 }
      else if c = 100 then scanShorts arg rest { st with dump_memory := st.dump_memory + 1 }
      else if c = 84 then scanShorts arg rest { st with trace_memory := st.trace_memory + 1 }
      else if c = 113 then scanShorts arg rest { st with empty_run := st.empty_run + 1 }
      else if c = 115 then scanShorts arg rest { st with strip_flags := JS_STRIP_DEBUG }
      else .exitR 1 true true

/-- The inner option loop for a long-option token `--l`
(qjs.c lines 347-441 with `arg` empty: a single iteration with
`opt = 0`).  Options taking a value consume the next argv token;
`--memory-limit` and `--stack-size` run it through `get_suffixed_size`
(whose failure exits 1).  An unknown name prints a diagnostic and invokes
`help()` (exit 1). -/
def scanLong (l : List Nat) (rest : List (List Nat)) (st : MainState) : ScanResult :=
  if l = bHelp then .exitR 1 false true
  else if l = bEval then
    match rest with
    | a :: _ => .cont 1 { st with expr := some a }
    | [] => .exitR 2 true false
  else if l = bInclude then
    match rest with
    | [] => .exitR 1 true false
    | a :: _ =>
        if 32 ≤ st.include_list.length then .exitR 1 true false
        else .cont 1 { st with include_list := st.include_list ++ [a] }
  else if l = bInteractive then .cont 0 { st with interactive := st.interactive + 1 }
  else if l = bModule then .cont 0 { st with module := 1 }
  else if l = bScript then .cont 0 { st with module := 0 }
  else if l = bDump then .cont 0 { st with dump_memory := st.dump_memory + 1 }
  else if l = bTrace then .cont 0 { st with trace_memory := st.trace_memory + 1 }
  else if l = bStd then .cont 0 { st with load_std := true }
  else if l = bNoUnhandledRejection then
    .cont 0 { st with dump_unhandled_promise_rejection := false }
  else if l = bQuit then .cont 0 { st with empty_run := st.empty_run + 1 }
  else if l = bMemoryLimit then
    match rest with
    | [] => .exitR 1 true false
    | a :: _ =>
        match get_suffixed_size a with
        | none => .exitR 1 true false
        | some v => .cont 1 { st with memory_limit := v }
  else if l = bStackSize then
    match rest with
    | [] => .exitR 1 true false
    | a :: _ =>
        match get_suffixed_size a with
        | none => .exitR 1 true false
        | some v => .cont 1 { st with stack_size := v }
  else if l = bStripSource then .cont 0 { st with strip_flags := JS_STRIP_SOURCE }
  else .exitR 1 true true

/-- Result of the option loop of `main`: successful completion with the
final state and `optind`, or a process exit. -/
inductive ParseResult where
  | ok (st : MainState) (optind : Nat)
  | exit (code : Nat) (diag hlp : Bool)
deriving DecidableEq

/-- The outer `while (optind < argc && *argv[optind] == '-')` loop
(qjs.c lines 332-442).  `tokens` is `argv` from position `ind` on.  A
token not starting with `-` (including an empty token) stops scanning
unconsumed; bare `-` stops unconsumed; `--` stops consumed; otherwise the
token is consumed (`optind++`) and handed to the inner loop, which may
consume `k` further tokens as option arguments.  Fuel-indexed: each
iteration consumes at least one token, so `tokens.length` fuel always
suffices. -/
def parseLoop : Nat → List (List Nat) → Nat → MainState → ParseResult
  | 0, _, ind, st => .ok st ind
  | fuel + 1, tokens, ind, st =>
      match tokens with
      | [] => .ok st ind
      | t :: rest =>
          if t.headD 0 = 45 then
            match t.tail with
            | [] => .ok st ind
            | a :: arest =>
                if a = 45 then
                  match arest with
                  | [] => .ok st (ind + 1)
                  | _ =>
                      match scanLong arest rest st with
                      | .exitR c d h => .exit c d h
                      | .cont k st' => parseLoop fuel (rest.drop k) (ind + 1 + k) st'
                else
                  match scanShorts (a :: arest) rest st with
                  | .exitR c d h => .exit c d h
                  | .cont k st' => parseLoop fuel (rest.drop k) (ind + 1 + k) st'
          else .ok st ind

/-- The option-parsing phase of `main` on a full `argv` (including
`argv[0]`): `optind` starts at 1. -/
def js_main_parse (argv : List (List Nat)) : ParseResult :=
  parseLoop argv.length (argv.drop 1) 1 initMainState

/-! ### Eval pipeline (qjs.c lines 49-101)

The engine is an external collaborator; its entry points used by
`eval_buf` / `eval_file` are collected in the oracle record `Engine`, and
every call the pipeline makes into the engine is recorded in a trace of
`EEv` events. -/

/-- An engine value as seen by the host: either the exception marker
(`JS_IsException` true) or an ordinary value. -/
inductive JSVal where
  | exception
  | value (v : Nat)
deriving DecidableEq

/-- Modelled from the spec: engine eval-flag constants from the engine
header (not in `src/`).  `JS_EVAL_TYPE_MASK` extracts the type bits and
`JS_EVAL_FLAG_COMPILE_ONLY` is a flag bit disjoint from them; the exact
values are immaterial. -/
def JS_EVAL_TYPE_GLOBAL : Nat := 0

/-- Modelled from the spec: the module eval type (see
`JS_EVAL_TYPE_GLOBAL`). -/
def JS_EVAL_TYPE_MODULE : Nat := 1

/-- Modelled from the spec: mask of the eval-type bits (see
`JS_EVAL_TYPE_GLOBAL`). -/
def JS_EVAL_TYPE_MASK : Nat := 3

/-- Modelled from the spec: compile-without-executing flag (see
`JS_EVAL_TYPE_GLOBAL`). -/
def JS_EVAL_FLAG_COMPILE_ONLY : Nat := 32

/-- The engine entry points used by the eval pipeline, as a response
oracle: `loadFile` is `js_load_file` (`none` = I/O failure), `detect` is
`JS_DetectModule`, `jsEval buf filename flags` is `JS_Eval`,
`evalFunction` is `JS_EvalFunction` on a compiled module, `awaitFn` is
`js_std_await`. -/
structure Engine where
  loadFile : List Nat → Option (List Nat)
  detect : List Nat → Bool
  jsEval : List Nat → List Nat → Nat → JSVal
  evalFunction : Nat → JSVal
  awaitFn : JSVal → JSVal

/-- Engine calls made by `eval_buf`, in order. -/
inductive EEv where
  | callEval (buf fn : List Nat) (flags : Nat)
  | callSetImportMeta (use_realpath is_main : Bool)
  | callEvalFunction
  | callAwait
  | callDumpError
  | callFreeValue
deriving DecidableEq

/-- Shared tail of `eval_buf` (qjs.c lines 68-75): dump the current
exception and return −1 on failure, else return 0; always release the
evaluation result. -/
def evalBufFinish (v : JSVal) (tr : List EEv) : Int × List EEv :=
  if v = .exception then (-1, tr ++ [.callDumpError, .callFreeValue])
  else (0, tr ++ [.callFreeValue])

/-- `eval_buf` (qjs.c lines 49-76).  In module mode the buffer is first
compiled with `JS_EVAL_FLAG_COMPILE_ONLY`; only when that does not raise
is `js_module_set_import_meta(ctx, val, TRUE, TRUE)` called and the
compiled module run with `JS_EvalFunction`, after which `js_std_await`
runs on the result (it is also reached, on the exception value, when the
compile failed).  Otherwise a single direct `JS_Eval`. -/
def eval_buf (E : Engine) (buf filename : List Nat) (eval_flags : Nat) :
    Int × List EEv :=
  if eval_flags &&& JS_EVAL_TYPE_MASK = JS_EVAL_TYPE_MODULE then
    let cres := E.jsEval buf filename (eval_flags ||| JS_EVAL_FLAG_COMPILE_ONLY)
    let head := EEv.callEval buf filename (eval_flags ||| JS_EVAL_FLAG_COMPILE_ONLY)
    match cres with
    | .exception =>
        evalBufFinish (E.awaitFn .exception) [head, .callAwait]
    | .value m =>
        evalBufFinish (E.awaitFn (E.evalFunction m))
          [head, .callSetImportMeta true true, .callEvalFunction, .callAwait]
  else
    evalBufFinish (E.jsEval buf filename eval_flags)
      [.callEval buf filename eval_flags]

/-- Modelled from the spec: `has_suffix` lives in `cutils.h`, which is
not in `src/`; per the spec it tests whether the filename ends with the
given suffix. -/
def has_suffix (s suffix : List Nat) : Bool := suffix.isSuffixOf s

/-- Result of `eval_file`: `exitProc` models the `perror` + `exit(1)` on
I/O failure; otherwise the resolved `eval_flags`, the return value of
`eval_buf`, and its engine trace. -/
inductive EvalFileResult where
  | exitProc (code : Nat)
  | ret (eval_flags : Nat) (r : Int) (tr : List EEv)
deriving DecidableEq

/-- `eval_file` (qjs.c lines 78-101).  A failed `js_load_file` prints the
OS error and exits 1.  `module < 0` (autodetect) resolves to module mode
when the filename ends in `".mjs"` or `JS_DetectModule` says so; the
resolved mode selects the eval flags for `eval_buf`. -/
def eval_file (E : Engine) (filename : List Nat) (module : Int) : EvalFileResult :=
  match E.loadFile filename with
  | none => .exitProc 1
  | some buf =>
      let m : Int :=
        if module < 0 then
          if has_suffix filename bMjs || E.detect buf then 1 else 0
        else module
      let eval_flags := if m ≠ 0 then JS_EVAL_TYPE_MODULE else JS_EVAL_TYPE_GLOBAL
      let (r, tr) := eval_buf E buf filename eval_flags
      .ret eval_flags r tr

/-! ### Runtime driver (qjs.c lines 310-551, after option parsing)

The driver's calls into the engine and the standard-library glue are
recorded as `DEv` events.  `mainRt` / `mainCtx` distinguish the main
runtime and context from the throwaway ones of the `-q -d`
micro-benchmark loop. -/

/-- Driver-level events. -/
inductive DEv where
  | newRuntime (mainRt : Bool)
  | setMemoryLimit (n : Nat)
  | setMaxStackSize (n : Nat)
  | setStripInfo (n : Nat)
  | setWorkerCtxFunc
  | initHandlers
  | newContext (mainCtx : Bool)
  | setModuleLoader
  | setRejectionTracker (enabled : Bool)
  | addHelpers (args : List (List Nat))
  | evalStd
  | evalInclude (f : List Nat)
  | evalExpr (e : List Nat)
  | evalScript (f : List Nat)
  | evalRepl
  | stdLoop
  | dumpMemoryUsage
  | freeHandlers
  | freeContext (mainCtx : Bool)
  | freeRuntime (mainRt : Bool)
deriving DecidableEq

/-- Outcome of the user-code section (qjs.c lines 475-510): a process
exit from inside `eval_file` (I/O failure), or completion with
`failed = true` for the `goto fail` path. -/
inductive UCResult where
  | procExit (code : Nat) (tr : List DEv)
  | done (failed : Bool) (tr : List DEv)
deriving DecidableEq

/-- Event trace of a user-code outcome. -/
def UCResult.trace : UCResult → List DEv
  | .procExit _ tr => tr
  | .done _ tr => tr

/-- The include-file loop (qjs.c lines 487-490): evaluate each include in
listed order, stopping at the first failure (`goto fail`) or process exit
(I/O failure inside `eval_file`). -/
def runIncludes (E : Engine) (module : Int) : List (List Nat) → UCResult
  | [] => .done false []
  | f :: fs =>
      match eval_file E f module with
      | .exitProc n => .procExit n [.evalInclude f]
      | .ret _ r _ =>
          if r ≠ 0 then .done true [.evalInclude f]
          else
            match runIncludes E module fs with
            | .procExit n tr => .procExit n (.evalInclude f :: tr)
            | .done b tr => .done b (.evalInclude f :: tr)

/-- Tail of the user-code section (qjs.c lines 505-509): if
`interactive`, detach the rejection tracker and run the precompiled REPL;
then drain the job queue with `js_std_loop`. -/
def replTail (interactive : Nat) : List DEv :=
  (if interactive ≠ 0 then [DEv.setRejectionTracker false, DEv.evalRepl] else [])
    ++ [DEv.stdLoop]

/-- The user-code section of `main` (qjs.c lines 475-510), entered when
`empty_run` is zero: publish `scriptArgs` (`argv + optind`), evaluate the
`--std` synthetic module (result ignored), the includes in order, then
exactly one of the `-e` expression, the script file, or forced
interactive mode; REPL and `js_std_loop` close the section. -/
def userCode (st : MainState) (scriptArgs : List (List Nat)) (E : Engine) : UCResult :=
  let tr1 :=
    [DEv.addHelpers scriptArgs] ++ (if st.load_std then [DEv.evalStd] else [])
  let _stdRes := if st.load_std then
    some (eval_buf E bStdSource bInput JS_EVAL_TYPE_MODULE) else none
  match runIncludes E st.module st.include_list with
  | .procExit n tr => .procExit n (tr1 ++ tr)
  | .done true tr => .done true (tr1 ++ tr)
  | .done false tr =>
      let trI := tr1 ++ tr
      match st.expr with
      | some e =>
          let (r, _) := eval_buf E e bCmdline 0
          if r ≠ 0 then .done true (trI ++ [.evalExpr e])
          else .done false (trI ++ [.evalExpr e] ++ replTail st.interactive)
      | none =>
          match scriptArgs with
          | [] => .done false (trI ++ replTail 1)
          | f :: _ =>
              match eval_file E f st.module with
              | .exitProc n => .procExit n (trI ++ [.evalScript f])
              | .ret _ r _ =>
                  if r ≠ 0 then .done true (trI ++ [.evalScript f])
                  else .done false (trI ++ [.evalScript f] ++ replTail st.interactive)

/-- Result of the driver: `exitProc` for a `exit()` call (runtime or
context allocation failure, or I/O failure inside `eval_file`), `ret` for
the normal returns of `main` (0 success, 1 `goto fail`). -/
inductive DriverResult where
  | exitProc (code : Nat) (tr : List DEv)
  | ret (code : Nat) (tr : List DEv)
deriving DecidableEq

/-- Exit/return code of a driver result. -/
def DriverResult.code : DriverResult → Nat
  | .exitProc n _ => n
  | .ret n _ => n

/-- Event trace of a driver result. -/
def DriverResult.trace : DriverResult → List DEv
  | .exitProc _ tr => tr
  | .ret _ tr => tr

/-- The micro-benchmark loop (qjs.c lines 521-544): 100 iterations of
runtime/context creation and teardown on throwaway handles. -/
def benchTrace : List DEv :=
  (List.replicate 100
    [DEv.newRuntime false, DEv.newContext false,
     DEv.freeContext false, DEv.freeRuntime false]).flatten

/-- Driver events up to and including main-context creation
(qjs.c lines 444-461). -/
def driverCtxTrace (st : MainState) : List DEv :=
  [DEv.newRuntime true]
    ++ (if st.memory_limit ≠ 0 then [DEv.setMemoryLimit st.memory_limit] else [])
    ++ (if st.stack_size ≠ 0 then [DEv.setMaxStackSize st.stack_size] else [])
    ++ [DEv.setStripInfo st.strip_flags, DEv.setWorkerCtxFunc, DEv.initHandlers,
        DEv.newContext true]

/-- Driver configuration events before the user-code section
(qjs.c lines 444-473). -/
def driverConfigTrace (st : MainState) : List DEv :=
  driverCtxTrace st ++ [DEv.setModuleLoader]
    ++ (if st.dump_unhandled_promise_rejection then [DEv.setRejectionTracker true]
        else [])

/-- The teardown sequence (qjs.c lines 517-519 and 547-549): handlers,
context, runtime, in that order. -/
def teardownTrace : List DEv :=
  [DEv.freeHandlers, DEv.freeContext true, DEv.freeRuntime true]

/-- The driver part of `main` after option parsing
(qjs.c lines 444-551).  `rtOk` / `ctxOk` are the oracles for runtime and
context allocation success (failure exits 2).  On the `goto fail` path
and on the success path, handlers, context and runtime are released in
that order; the micro-benchmark runs only on the success path with
`empty_run` and `dump_memory` both set. -/
def driver (st : MainState) (scriptArgs : List (List Nat)) (E : Engine)
    (rtOk ctxOk : Bool) : DriverResult :=
  if ¬ rtOk then .exitProc 2 [DEv.newRuntime true]
  else if ¬ ctxOk then .exitProc 2 (driverCtxTrace st)
  else
    match (if st.empty_run ≠ 0 then UCResult.done false []
           else userCode st scriptArgs E) with
    | .procExit n tr => .exitProc n (driverConfigTrace st ++ tr)
    | .done true tr => .ret 1 (driverConfigTrace st ++ tr ++ teardownTrace)
    | .done false tr =>
        .ret 0 (driverConfigTrace st ++ tr
          ++ (if st.dump_memory ≠ 0 then [DEv.dumpMemoryUsage] else [])
          ++ teardownTrace
          ++ (if st.empty_run ≠ 0 ∧ st.dump_memory ≠ 0 then benchTrace else []))

/-- `main` (qjs.c lines 310-551): option parsing followed by the driver.
A parse-phase exit produces an empty driver trace. -/
def js_main (argv : List (List Nat)) (E : Engine) (rtOk ctxOk : Bool) : DriverResult :=
  match js_main_parse argv with
  | .exit c _ _ => .exitProc c []
  | .ok st ind => driver st (argv.drop ind) E rtOk ctxOk


/-! ### Concrete machines and engines used by witnesses and
counterexamples -/

/-- Concrete machine used by the C1 witness: one live block of usable
size 4 at pointer 1, accounting 12 of a 16-byte cap. -/
def mC1w : AllocMachine :=
  { st := { malloc_count := 1, malloc_size := 12, malloc_limit := 16 }, heap := [(1, 4)] }

/-- Concrete machine used by the C1 witness: result of allocating 4
bytes under a 20-byte cap. -/
def mC1res20 : AllocMachine :=
  { st := { malloc_count := 1, malloc_size := 12, malloc_limit := 20 }, heap := [(1, 4)] }

/-- Concrete machine used by C1: one live block of usable size 16 at
pointer 1, accounting 24 of a 30-byte cap.  Reallocating the block to 20
bytes passes the delta check (24 + 20 − 16 = 28 ≤ 30) even though
live_bytes plus the requested size (24 + 20 = 44) exceeds the cap. -/
def mC1r : AllocMachine :=
  { st := { malloc_count := 1, malloc_size := 24, malloc_limit := 30 }, heap := [(1, 16)] }

/-- Concrete machine used by the C8 witness. -/
def mC8w : AllocMachine :=
  { st := { malloc_count := 1, malloc_size := 12, malloc_limit := 100 }, heap := [(1, 4)] }

/-- Concrete machine used by the C8 witness for the refused realloc. -/
def mC8r : AllocMachine :=
  { st := { malloc_count := 1, malloc_size := 12, malloc_limit := 16 }, heap := [(2, 4)] }


/-- The short option characters `main` recognizes:
`h ? e I i m d T q s`. -/
def recognizedShorts : List Nat := [104, 63, 101, 73, 105, 109, 100, 84, 113, 115]

/-- The long option names `main` recognizes. -/
def recognizedLongs : List (List Nat) :=
  [bHelp, bEval, bInclude, bInteractive, bModule, bScript, bDump, bTrace, bStd,
   bNoUnhandledRejection, bQuit, bMemoryLimit, bStackSize, bStripSource]

/-- A concrete engine whose loads and evals all succeed. -/
def engOk : Engine :=
  { loadFile := fun _ => some [], detect := fun _ => false,
    jsEval := fun _ _ _ => .value 0, evalFunction := fun _ => .value 0,
    awaitFn := fun v => v }

/-- A concrete engine whose file loads all fail. -/
def engIOFail : Engine :=
  { loadFile := fun _ => none, detect := fun _ => false,
    jsEval := fun _ _ _ => .exception, evalFunction := fun _ => .exception,
    awaitFn := fun v => v }

/-- Option state after `qjs -i`, used by witnesses. -/
def stC4w : MainState := { initMainState with interactive := 1 }

/-- Option state with a full include list, used by the C5 witness. -/
def stC5w : MainState :=
  { initMainState with include_list := List.replicate 32 [97] }


/-- Events that represent evaluation of user-visible code. -/
def isEvalEv : DEv → Bool
  | .evalStd => true
  | .evalInclude _ => true
  | .evalExpr _ => true
  | .evalScript _ => true
  | .evalRepl => true
  | _ => false

/-- Events the user-code section (qjs.c lines 475-510) can emit. -/
def isUserEv : DEv → Bool
  | .addHelpers _ => true
  | .evalStd => true
  | .evalInclude _ => true
  | .evalExpr _ => true
  | .evalScript _ => true
  | .setRejectionTracker enabled => !enabled
  | .evalRepl => true
  | .stdLoop => true
  | _ => false


/-- Events the driver emits while configuring runtime and context. -/
def isConfigEv : DEv → Bool
  | .newRuntime _ => true
  | .setMemoryLimit _ => true
  | .setMaxStackSize _ => true
  | .setStripInfo _ => true
  | .setWorkerCtxFunc => true
  | .initHandlers => true
  | .newContext _ => true
  | .setModuleLoader => true
  | .setRejectionTracker _ => true
  | _ => false


/-- Whether the user-code section exited the process. -/
def UCResult.isProcExit : UCResult → Bool
  | .procExit _ _ => true
  | .done _ _ => false

/-- Option state after `qjs -e 1`, used by the C3 witness. -/
def stC3w : MainState := { initMainState with expr := some [49] }

/-- Option state after `qjs -I f`, used by the C3 witness. -/
def stC3x : MainState := { initMainState with include_list := [[102]] }

/-! ## Proofs -/

lemma js_trace_malloc_limit {s : JSMallocState} {size : Nat} {resp : Option (Nat × Nat)}
    {s' : JSMallocState} {p : Option Nat} {out : List TraceLine}
    (h : js_trace_malloc s size resp = .ret s' p out) :
    s'.malloc_limit = s.malloc_limit := by
  unfold js_trace_malloc at h
  split at h
  · simp at h
  · split at h
    · injection h with h1 h2 h3; subst h1; rfl
    · match resp with
      | none => injection h with h1 h2 h3; subst h1; rfl
      | some (q, u) => injection h with h1 h2 h3; subst h1; rfl

lemma js_trace_free_limit {s : JSMallocState} {p : Option Nat} {u : Nat}
    {s' : JSMallocState} {out : List TraceLine} (h : js_trace_free s p u = (s', out)) :
    s'.malloc_limit = s.malloc_limit := by
  cases p with
  | none => rw [js_trace_free] at h; injection h with h1 h2; subst h1; rfl
  | some q => rw [js_trace_free] at h; injection h with h1 h2; subst h1; rfl

lemma js_trace_realloc_limit {s : JSMallocState} {p : Option Nat} {old size : Nat}
    {resp : Option (Nat × Nat)} {s' : JSMallocState} {q : Option Nat} {out : List TraceLine}
    (h : js_trace_realloc s p old size resp = .ret s' q out) :
    s'.malloc_limit = s.malloc_limit := by
  unfold js_trace_realloc at h
  match p with
  | none =>
    simp only at h
    split at h
    · injection h with h1 h2 h3; subst h1; rfl
    · exact js_trace_malloc_limit h
  | some q0 =>
    simp only at h
    split at h
    · injection h with h1 h2 h3; subst h1; rfl
    · split at h
      · injection h with h1 h2 h3; subst h1; rfl
      · match resp with
        | none => injection h with h1 h2 h3; subst h1; rfl
        | some (q2, u2) => injection h with h1 h2 h3; subst h1; rfl

lemma stepMalloc_limit {m : AllocMachine} {size : Nat} {resp : Option (Nat × Nat)}
    {m' : AllocMachine} {r : Option Nat} (h : stepMalloc m size resp = some (m', r)) :
    m'.st.malloc_limit = m.st.malloc_limit := by
  unfold stepMalloc at h
  split at h
  · split at h
    · simp at h
    · rename_i heq
      injection h with h1
      injection h1 with h2 h3
      subst h2
      exact js_trace_malloc_limit heq
    · rename_i heq
      injection h with h1
      injection h1 with h2 h3
      subst h2
      exact js_trace_malloc_limit heq
    · simp at h
  · simp at h

lemma stepOp_limit {m : AllocMachine} {op : AllocOp} {m' : AllocMachine} {r : Option Nat}
    (h : stepOp m op = some (m', r)) : m'.st.malloc_limit = m.st.malloc_limit := by
  unfold stepOp at h
  match op with
  | .opMalloc size resp => exact stepMalloc_limit h
  | .opFree p =>
    match p with
    | none =>
      simp only [Option.some.injEq, Prod.mk.injEq] at h
      obtain ⟨h2, h3⟩ := h
      subst h2
      have hfe : js_trace_free m.st none 0 =
          ((js_trace_free m.st none 0).1, (js_trace_free m.st none 0).2) := rfl
      exact js_trace_free_limit hfe
    | some q =>
      simp only at h
      split at h
      · simp at h
      · simp only [Option.some.injEq, Prod.mk.injEq] at h
        obtain ⟨h2, h3⟩ := h
        subst h2
        rename_i u _
        have hfe : js_trace_free m.st (some q) u =
            ((js_trace_free m.st (some q) u).1, (js_trace_free m.st (some q) u).2) := rfl
        exact js_trace_free_limit hfe
  | .opRealloc p size resp =>
    match p with
    | none =>
      simp only at h
      split at h
      · injection h with h1
        injection h1 with h2 h3
        subst h2
        rfl
      · exact stepMalloc_limit h
    | some q =>
      simp only at h
      split at h
      · simp at h
      · split at h
        · split at h
          · rename_i heq
            injection h with h1
            injection h1 with h2 h3
            subst h2
            exact js_trace_realloc_limit heq
          · simp at h
        · split at h
          · split at h
            · rename_i heq
              injection h with h1
              injection h1 with h2 h3
              subst h2
              exact js_trace_realloc_limit heq
            · rename_i heq
              injection h with h1
              injection h1 with h2 h3
              subst h2
              exact js_trace_realloc_limit heq
            · simp at h
            · simp at h
          · simp at h

lemma runOps_limit {limit : Nat} {ops : List AllocOp} {m' : AllocMachine}
    (h : runOps (initMachine limit) ops = some m') : m'.st.malloc_limit = limit := by
  suffices H : ∀ (m : AllocMachine) (ops : List AllocOp) (m' : AllocMachine),
      runOps m ops = some m' → m'.st.malloc_limit = m.st.malloc_limit by
    exact H _ _ _ h
  intro m ops
  induction ops generalizing m with
  | nil => intro m' h'; injection h' with h1; subst h1; rfl
  | cons op ops ih =>
    intro m' h'
    rw [runOps] at h'
    cases hs : stepOp m op with
    | none => rw [hs] at h'; simp at h'
    | some pr =>
      obtain ⟨m1, r1⟩ := pr
      rw [hs] at h'
      exact (ih m1 m' h').trans (stepOp_limit hs)
lemma js_trace_malloc_zero (s : JSMallocState) (resp : Option (Nat × Nat)) :
    js_trace_malloc s 0 resp = .assertFail := by
  simp [js_trace_malloc]

lemma js_trace_malloc_refuse {s : JSMallocState} {size : Nat} (resp : Option (Nat × Nat))
    (h0 : size ≠ 0) (h1 : wadd s.malloc_size size > s.malloc_limit) :
    js_trace_malloc s size resp = .ret s none [] := by
  simp [js_trace_malloc, h0, h1]

lemma js_trace_malloc_some_le {s : JSMallocState} {size : Nat} {resp : Option (Nat × Nat)}
    {s' : JSMallocState} {p : Nat} {out : List TraceLine}
    (h : js_trace_malloc s size resp = .ret s' (some p) out) :
    wadd s.malloc_size size ≤ s.malloc_limit := by
  unfold js_trace_malloc at h
  split at h
  · simp at h
  · split at h
    · rename_i hc
      injection h with h1 h2 h3
      simp at h2
    · rename_i hc
      exact Nat.le_of_not_lt hc

lemma stepMalloc_some_le {m : AllocMachine} {size : Nat} {resp : Option (Nat × Nat)}
    {m' : AllocMachine} {p : Nat} (h : stepMalloc m size resp = some (m', some p)) :
    wadd m.st.malloc_size size ≤ m.st.malloc_limit := by
  unfold stepMalloc at h
  split at h
  · split at h
    · simp at h
    · rename_i heq
      injection h with h1
      injection h1 with h2 h3
      simp at h3
    · rename_i heq
      exact js_trace_malloc_some_le heq
    · simp at h
  · simp at h

lemma stepMalloc_refuse {m : AllocMachine} {size : Nat} {resp : Option (Nat × Nat)}
    (h1 : wadd m.st.malloc_size size > m.st.malloc_limit) (h0 : size ≠ 0)
    (hf : freshResp m.heap resp = true) :
    stepMalloc m size resp = some (m, none) := by
  unfold stepMalloc
  rw [if_pos hf, js_trace_malloc_refuse resp h0 h1]

lemma js_trace_realloc_refuse {s : JSMallocState} {old size : Nat} (p : Nat)
    (resp : Option (Nat × Nat)) (h0 : size ≠ 0)
    (h1 : wsub (wadd s.malloc_size size) old > s.malloc_limit) :
    js_trace_realloc s (some p) old size resp = .ret s none [] := by
  simp [js_trace_realloc, h0, h1]

lemma stepOp_realloc_refuse {m : AllocMachine} {p old size : Nat}
    {resp : Option (Nat × Nat)} (hh : heapFind m.heap p = some old) (h0 : size ≠ 0)
    (hr : reallocRespOk m.heap p resp = true)
    (h1 : wsub (wadd m.st.malloc_size size) old > m.st.malloc_limit) :
    stepOp m (.opRealloc (some p) size resp) = some (m, none) := by
  simp only [stepOp, hh]
  rw [if_neg h0, if_pos hr, js_trace_realloc_refuse p resp h0 h1]

lemma js_trace_realloc_some_le {s : JSMallocState} {p old size : Nat}
    {resp : Option (Nat × Nat)} {s' : JSMallocState} {q : Nat} {out : List TraceLine}
    (h : js_trace_realloc s (some p) old size resp = .ret s' (some q) out) :
    wsub (wadd s.malloc_size size) old ≤ s.malloc_limit := by
  unfold js_trace_realloc at h
  dsimp only at h
  split at h
  · injection h with h1 h2 h3
    simp at h2
  · split at h
    · injection h with h1 h2 h3
      simp at h2
    · rename_i hc
      exact Nat.le_of_not_lt hc

lemma stepOp_realloc_some_le {m : AllocMachine} {p old size : Nat}
    {resp : Option (Nat × Nat)} {m' : AllocMachine} {q : Nat}
    (hh : heapFind m.heap p = some old)
    (h : stepOp m (.opRealloc (some p) size resp) = some (m', some q)) :
    wsub (wadd m.st.malloc_size size) old ≤ m.st.malloc_limit := by
  simp only [stepOp, hh] at h
  by_cases h0 : size = 0
  · rw [if_pos h0] at h
    cases hjr : js_trace_realloc m.st (some p) old 0 resp with
    | assertFail => rw [hjr] at h; simp at h
    | ret s' pq out =>
      cases pq with
      | none => rw [hjr] at h; simp at h
      | some q2 => rw [hjr] at h; simp at h
  · rw [if_neg h0] at h
    by_cases hr : reallocRespOk m.heap p resp = true
    · rw [if_pos hr] at h
      cases resp with
      | none =>
        cases hjr : js_trace_realloc m.st (some p) old size none with
        | assertFail => rw [hjr] at h; simp at h
        | ret s' pq out =>
          cases pq with
          | none => rw [hjr] at h; simp at h
          | some q2 => rw [hjr] at h; simp at h
      | some pr =>
        obtain ⟨a, u2⟩ := pr
        cases hjr : js_trace_realloc m.st (some p) old size (some (a, u2)) with
        | assertFail => rw [hjr] at h; simp at h
        | ret s' pq out =>
          cases pq with
          | none => rw [hjr] at h; simp at h
          | some q2 => exact js_trace_realloc_some_le hjr
    · rw [if_neg hr] at h
      simp at h

lemma js_trace_realloc_zero_free (s : JSMallocState) (p u : Nat)
    (resp : Option (Nat × Nat)) :
    js_trace_realloc s (some p) u 0 resp =
      .ret (js_trace_free s (some p) u).1 none [.lineRfree 0 p u] := by
  rw [js_trace_free]
  simp [js_trace_realloc]

lemma stepOp_realloc_zero_free {m : AllocMachine} {p old : Nat}
    (resp : Option (Nat × Nat)) (hh : heapFind m.heap p = some old) :
    stepOp m (.opRealloc (some p) 0 resp) = stepOp m (.opFree (some p)) := by
  simp only [stepOp, hh, if_true, js_trace_realloc_zero_free m.st p old resp]

/-- C1 counterexample: starting from the initial allocator state with
`byte_limit = 16`, a single allocation of 16 bytes (usable size 16)
succeeds (the pre-check `0 + 16 > 16` does not fire) and leaves
`live_bytes = 16 + MALLOC_OVERHEAD = 24 > 16 = byte_limit`, because the
accounted cost `usable + OVERHEAD` exceeds the requested size.  So a
successful allocation can make `malloc_size` exceed `malloc_limit`. -/
theorem claim_C1_counterexample :
    stepOp (initMachine 16) (AllocOp.opMalloc 16 (some (1, 16))) =
      some ({ st := { malloc_count := 1, malloc_size := 24, malloc_limit := 16 },
              heap := [(1, 16)] }, some 1) ∧
    runOps (initMachine 16) [AllocOp.opMalloc 16 (some (1, 16))] =
      some { st := { malloc_count := 1, malloc_size := 24, malloc_limit := 16 },
             heap := [(1, 16)] } ∧
    24 > 16 := by
  decide

/-- C1 (amended): in every run of the tracing allocator, (1) a new
allocation succeeds only if `live_bytes + requested ≤ byte_limit` held at
the call (afterwards `live_bytes` may exceed `byte_limit`, since the
accounted cost `usable + OVERHEAD` can exceed the requested size); (2,3)
a cap-refused allocation returns null without touching the accounting,
the heap, or any live block; (4) a reallocation of a live block succeeds
only if the delta check `live_bytes + requested − old_usable ≤
byte_limit` held at the call — not `live_bytes + requested ≤ byte_limit`;
(5) a delta-refused reallocation leaves accounting and the original block
untouched; (6) concretely, a reallocation can succeed although
`live_bytes + requested > byte_limit` (24 of 30 accounted, block of 16
reallocated to 20: delta 28 ≤ 30 passes while 24 + 20 = 44 > 30); and (7)
`byte_limit` never changes along any operation sequence from the initial
state. -/
theorem claim_C1 :
    (∀ (m : AllocMachine) (size : Nat) (resp : Option (Nat × Nat))
        (m' : AllocMachine) (p : Nat),
      stepOp m (.opMalloc size resp) = some (m', some p) →
      wadd m.st.malloc_size size ≤ m.st.malloc_limit) ∧
    (∀ (s : JSMallocState) (size : Nat) (resp : Option (Nat × Nat)),
      size ≠ 0 → wadd s.malloc_size size > s.malloc_limit →
      js_trace_malloc s size resp = .ret s none []) ∧
    (∀ (m : AllocMachine) (size : Nat) (resp : Option (Nat × Nat)),
      wadd m.st.malloc_size size > m.st.malloc_limit → size ≠ 0 →
      freshResp m.heap resp = true →
      stepOp m (.opMalloc size resp) = some (m, none)) ∧
    (∀ (m : AllocMachine) (p old size : Nat) (resp : Option (Nat × Nat))
        (m' : AllocMachine) (q : Nat),
      heapFind m.heap p = some old →
      stepOp m (.opRealloc (some p) size resp) = some (m', some q) →
      wsub (wadd m.st.malloc_size size) old ≤ m.st.malloc_limit) ∧
    (∀ (m : AllocMachine) (p old size : Nat) (resp : Option (Nat × Nat)),
      heapFind m.heap p = some old → size ≠ 0 →
      reallocRespOk m.heap p resp = true →
      wsub (wadd m.st.malloc_size size) old > m.st.malloc_limit →
      stepOp m (.opRealloc (some p) size resp) = some (m, none)) ∧
    (stepOp mC1r (AllocOp.opRealloc (some 1) 20 (some (1, 20))) =
       some ({ st := { malloc_count := 1, malloc_size := 28, malloc_limit := 30 },
               heap := [(1, 20)] }, some 1) ∧
     wadd mC1r.st.malloc_size 20 > mC1r.st.malloc_limit) ∧
    (∀ (limit : Nat) (ops : List AllocOp) (m' : AllocMachine),
      runOps (initMachine limit) ops = some m' → m'.st.malloc_limit = limit) :=
  ⟨fun _ _ _ _ _ h => stepMalloc_some_le h,
   fun _ _ resp h0 h1 => js_trace_malloc_refuse resp h0 h1,
   fun _ _ _ h1 h0 hf => stepMalloc_refuse h1 h0 hf,
   fun _ _ _ _ _ _ _ hh h => stepOp_realloc_some_le hh h,
   fun _ _ _ _ _ hh h0 hr h1 => stepOp_realloc_refuse hh h0 hr h1,
   ⟨by decide, by decide⟩,
   fun _ _ _ h => runOps_limit h⟩

/-- Witness for C1 at concrete inputs. -/
theorem claim_C1_witness :
    wadd (initMachine 20).st.malloc_size 4 ≤ (initMachine 20).st.malloc_limit ∧
    js_trace_malloc { malloc_count := 0, malloc_size := 5, malloc_limit := 7 } 3 none =
      .ret { malloc_count := 0, malloc_size := 5, malloc_limit := 7 } none [] ∧
    stepOp (initMachine 10) (AllocOp.opMalloc 11 (some (1, 11))) =
      some (initMachine 10, none) ∧
    wsub (wadd mC1r.st.malloc_size 20) 16 ≤ mC1r.st.malloc_limit ∧
    stepOp mC1w (AllocOp.opRealloc (some 1) 9 none) = some (mC1w, none) ∧
    mC1w.st.malloc_limit = 16 :=
  ⟨claim_C1.1 (initMachine 20) 4 (some (1, 4)) mC1res20 1 (by decide),
   claim_C1.2.1 { malloc_count := 0, malloc_size := 5, malloc_limit := 7 } 3 none
     (by decide) (by decide),
   claim_C1.2.2.1 (initMachine 10) 11 (some (1, 11)) (by decide) (by decide) (by decide),
   claim_C1.2.2.2.1 mC1r 1 16 20 (some (1, 20))
     { st := { malloc_count := 1, malloc_size := 28, malloc_limit := 30 },
       heap := [(1, 20)] } 1 (by decide) (by decide),
   claim_C1.2.2.2.2.1 mC1w 1 4 9 none (by decide) (by decide) (by decide) (by decide),
   claim_C1.2.2.2.2.2.2 16 [AllocOp.opMalloc 4 (some (1, 4))] mC1w (by decide)⟩

/-- C8: (1) reallocating a live block to size zero has exactly the
accounting effect of freeing it and returns null (the trace line differs:
`R 0 ptr` instead of `F ptr`); (2) at machine level the two operations
produce the same step result; (3,4) a reallocation whose growth would
exceed the byte cap fails, leaving accounting, heap and the original
block untouched; (5) allocating zero bytes trips the `assert`. -/
theorem claim_C8 :
    (∀ (s : JSMallocState) (p u : Nat) (resp : Option (Nat × Nat)),
      js_trace_realloc s (some p) u 0 resp =
        .ret (js_trace_free s (some p) u).1 none [.lineRfree 0 p u]) ∧
    (∀ (m : AllocMachine) (p old : Nat) (resp : Option (Nat × Nat)),
      heapFind m.heap p = some old →
      stepOp m (.opRealloc (some p) 0 resp) = stepOp m (.opFree (some p))) ∧
    (∀ (s : JSMallocState) (p u size : Nat) (resp : Option (Nat × Nat)),
      size ≠ 0 → wsub (wadd s.malloc_size size) u > s.malloc_limit →
      js_trace_realloc s (some p) u size resp = .ret s none []) ∧
    (∀ (m : AllocMachine) (p old size : Nat) (resp : Option (Nat × Nat)),
      heapFind m.heap p = some old → size ≠ 0 →
      reallocRespOk m.heap p resp = true →
      wsub (wadd m.st.malloc_size size) old > m.st.malloc_limit →
      stepOp m (.opRealloc (some p) size resp) = some (m, none)) ∧
    (∀ (s : JSMallocState) (resp : Option (Nat × Nat)),
      js_trace_malloc s 0 resp = .assertFail) :=
  ⟨fun s p u resp => js_trace_realloc_zero_free s p u resp,
   fun _ _ _ resp hh => stepOp_realloc_zero_free resp hh,
   fun _ p _ _ resp h0 h1 => js_trace_realloc_refuse p resp h0 h1,
   fun _ _ _ _ _ hh h0 hr h1 => stepOp_realloc_refuse hh h0 hr h1,
   fun s resp => js_trace_malloc_zero s resp⟩

/-- Witness for C8 at concrete inputs. -/
theorem claim_C8_witness :
    js_trace_realloc { malloc_count := 2, malloc_size := 40, malloc_limit := 100 }
        (some 5) 12 0 none =
      .ret (js_trace_free { malloc_count := 2, malloc_size := 40, malloc_limit := 100 }
              (some 5) 12).1 none [.lineRfree 0 5 12] ∧
    stepOp mC8w (AllocOp.opRealloc (some 1) 0 none) = stepOp mC8w (AllocOp.opFree (some 1)) ∧
    js_trace_realloc { malloc_count := 0, malloc_size := 5, malloc_limit := 7 }
        (some 2) 1 4 none =
      .ret { malloc_count := 0, malloc_size := 5, malloc_limit := 7 } none [] ∧
    stepOp mC8r (AllocOp.opRealloc (some 2) 9 none) = some (mC8r, none) ∧
    js_trace_malloc { malloc_count := 0, malloc_size := 0, malloc_limit := 0 } 0 none =
      .assertFail :=
  ⟨claim_C8.1 { malloc_count := 2, malloc_size := 40, malloc_limit := 100 } 5 12 none,
   claim_C8.2.1 mC8w 1 4 none (by decide),
   claim_C8.2.2.1 { malloc_count := 0, malloc_size := 5, malloc_limit := 7 } 2 1 4 none
     (by decide) (by decide),
   claim_C8.2.2.2.1 mC8r 2 4 9 none (by decide) (by decide) (by decide) (by decide),
   claim_C8.2.2.2.2 { malloc_count := 0, malloc_size := 0, malloc_limit := 0 } none⟩

/-- C10: freeing a null pointer returns immediately, emitting no trace
line and changing neither `malloc_count` nor `malloc_size`; reallocating
a null pointer to size zero returns null without consulting the platform
allocator and emits no trace line.  The machine-level steps likewise
leave the machine unchanged. -/
theorem claim_C10 :
    (∀ (s : JSMallocState) (u : Nat), js_trace_free s none u = (s, [])) ∧
    (∀ (s : JSMallocState) (old : Nat) (resp : Option (Nat × Nat)),
      js_trace_realloc s none old 0 resp = .ret s none []) ∧
    (∀ (m : AllocMachine), stepOp m (.opFree none) = some (m, none)) ∧
    (∀ (m : AllocMachine) (resp : Option (Nat × Nat)),
      stepOp m (.opRealloc none 0 resp) = some (m, none)) :=
  ⟨fun _ _ => rfl, fun _ _ _ => rfl, fun _ => rfl, fun _ _ => rfl⟩

/-! ### Size parser: proofs (C2) -/

lemma renderDecCore_append (fuel : Nat) : ∀ (n : Nat) (acc : List Nat),
    renderDecCore fuel n acc = renderDecCore fuel n [] ++ acc := by
  induction fuel with
  | zero => intro n acc; rfl
  | succ fuel ih =>
    intro n acc
    by_cases h0 : n = 0
    · simp [renderDecCore, h0]
    · rw [renderDecCore, renderDecCore, if_neg h0, if_neg h0, ih (n / 10),
        ih (n / 10) [48 + n % 10], List.append_assoc]
      rfl

lemma parseDigitsAux_render (fuel : Nat) : ∀ (n _acc a : Nat) (tail : List Nat),
    0 < n → n ≤ fuel →
    ∃ k, 0 < k ∧
      parseDigitsAux (renderDecCore fuel n tail) a = parseDigitsAux tail (a * k + n) := by
  induction fuel with
  | zero => intro n _acc a tail h1 h2; omega
  | succ fuel ih =>
    intro n acc a tail h1 h2
    rw [renderDecCore, if_neg (Nat.pos_iff_ne_zero.mp h1)]
    by_cases hsmall : n < 10
    · have hdiv : n / 10 = 0 := Nat.div_eq_of_lt hsmall
      rw [hdiv]
      have hz : ∀ f : Nat, renderDecCore f 0 ((48 + n % 10) :: tail) = (48 + n % 10) :: tail := by
        intro f; cases f <;> simp [renderDecCore]
      rw [hz]
      refine ⟨10, by omega, ?_⟩
      rw [parseDigitsAux]
      have hdig : isDigitByte (48 + n % 10) = true := by
        simp [isDigitByte]; omega
      rw [if_pos hdig]
      congr 1
      have : n % 10 = n := Nat.mod_eq_of_lt hsmall
      omega
    · have hpos : 0 < n / 10 := Nat.div_pos (Nat.le_of_not_lt hsmall) (by omega)
      have hle : n / 10 ≤ fuel := by
        have := Nat.div_lt_self h1 (by omega : 1 < 10)
        omega
      obtain ⟨k, hk, hparse⟩ := ih (n / 10) acc a ((48 + n % 10) :: tail) hpos hle
      refine ⟨k * 10, by positivity, ?_⟩
      rw [hparse, parseDigitsAux]
      have hdig : isDigitByte (48 + n % 10) = true := by
        simp [isDigitByte]
        have := Nat.mod_lt n (by omega : 0 < 10)
        omega
      rw [if_pos hdig]
      congr 1
      have hnm : n / 10 * 10 + n % 10 = n := by
        have := Nat.div_add_mod n 10
        omega
      have : 48 + n % 10 - 48 = n % 10 := by omega
      rw [this]
      ring_nf
      omega

lemma parse_renderDec (n : Nat) (rest : List Nat)
    (h : isDigitByte (rest.headD 0) = false) :
    parseDigitsAux (renderDec n ++ rest) 0 = (n, rest) := by
  have hrest : parseDigitsAux rest n = (n, rest) := by
    cases rest with
    | nil => rfl
    | cons c cs =>
      rw [parseDigitsAux]
      simp only [List.headD_cons] at h
      rw [if_neg (by simp [h])]
  by_cases h0 : n = 0
  · subst h0
    rw [renderDec, if_pos rfl]
    rw [List.cons_append, List.nil_append, parseDigitsAux, if_pos (by decide)]
    simpa using hrest
  · rw [renderDec, if_neg h0, renderDecCore_append, List.append_assoc, List.nil_append,
      ← renderDecCore_append]
    obtain ⟨k, hk, hp⟩ :=
      parseDigitsAux_render (n + 1) n 0 0 rest (Nat.pos_of_ne_zero h0) (by omega)
    rw [hp, Nat.zero_mul, Nat.zero_add, hrest]

lemma strtodInt_renderDec (n : Nat) (rest : List Nat)
    (h : isDigitByte (rest.headD 0) = false) (h46 : rest.headD 0 ≠ 46) :
    strtodInt (renderDec n ++ rest) = (n, rest) := by
  unfold strtodInt
  rw [parse_renderDec n rest h]
  cases rest with
  | nil => rfl
  | cons c cs =>
    simp only [List.headD_cons] at h46
    simp [h46]

lemma size_shift_mod (n k : Nat) (hn : n < 4294967296) (hk : k ≤ 30) :
    (n <<< k) % SIZE_W = n <<< k := by
  rw [Nat.shiftLeft_eq]
  apply Nat.mod_eq_of_lt
  calc n * 2 ^ k ≤ n * 2 ^ 30 :=
        Nat.mul_le_mul_left n (Nat.pow_le_pow_right (by norm_num) hk)
    _ < 4294967296 * 2 ^ 30 := by
        have h30 : 0 < 2 ^ 30 := by positivity
        exact (Nat.mul_lt_mul_right h30).mpr hn
    _ ≤ SIZE_W := by norm_num [SIZE_W]

/-- C2 counterexample: the claim requires any trailing content other
than a bare suffix to be a fatal error, but the suffix switch looks only
at the first unconsumed character: on `"1Kx"` (the rendering of 1
followed by `"Kx"`) the parser returns `1024` instead of exiting. -/
theorem claim_C2_counterexample :
    renderDec 1 ++ [75, 120] = [49, 75, 120] ∧
    get_suffixed_size [49, 75, 120] = some 1024 := by
  decide

/-- C2 (amended): for every `n < 2^32`, parsing the decimal rendering of
`n` followed by one of the suffixes `""`, `"K"`, `"k"`, `"M"`, `"G"`
yields `n` shifted by 0, 10, 10, 20, 30 bits respectively; trailing
content whose first character is not a digit, not `'.'`, and not one of
the suffix characters is a fatal error (diagnostic and exit 1, modelled
as `none`).  Characters after a recognized suffix character are
ignored (see the counterexample). -/
theorem claim_C2 : ∀ n : Nat, n < 4294967296 →
    get_suffixed_size (renderDec n) = some n ∧
    get_suffixed_size (renderDec n ++ [75]) = some (n <<< 10) ∧
    get_suffixed_size (renderDec n ++ [107]) = some (n <<< 10) ∧
    get_suffixed_size (renderDec n ++ [77]) = some (n <<< 20) ∧
    get_suffixed_size (renderDec n ++ [71]) = some (n <<< 30) ∧
    (∀ (c : Nat) (rest : List Nat), isDigitByte c = false → c ≠ 46 →
      c ≠ 71 → c ≠ 77 → c ≠ 107 → c ≠ 75 →
      get_suffixed_size (renderDec n ++ c :: rest) = none) := by
  intro n hn
  have hm : n % SIZE_W = n := Nat.mod_eq_of_lt (by norm_num [SIZE_W]; omega)
  refine ⟨?_, ?_, ?_, ?_, ?_, ?_⟩
  · have hs := strtodInt_renderDec n [] (by decide) (by decide)
    rw [List.append_nil] at hs
    unfold get_suffixed_size
    rw [hs]
    simp only [hm]
  · have hs := strtodInt_renderDec n [75] (by decide) (by decide)
    unfold get_suffixed_size
    rw [hs]
    simp only [hm]
    rw [size_shift_mod n 10 hn (by norm_num)]
  · have hs := strtodInt_renderDec n [107] (by decide) (by decide)
    unfold get_suffixed_size
    rw [hs]
    simp only [hm]
    rw [size_shift_mod n 10 hn (by norm_num)]
  · have hs := strtodInt_renderDec n [77] (by decide) (by decide)
    unfold get_suffixed_size
    rw [hs]
    simp only [hm]
    rw [size_shift_mod n 20 hn (by norm_num)]
  · have hs := strtodInt_renderDec n [71] (by decide) (by decide)
    unfold get_suffixed_size
    rw [hs]
    simp only [hm]
    rw [size_shift_mod n 30 hn (by norm_num)]
  · intro c rest hdig h46 h71 h77 h107 h75
    have hs := strtodInt_renderDec n (c :: rest)
      (by simpa using hdig) (by simpa using h46)
    unfold get_suffixed_size
    rw [hs]
    split
    rename_i heq
    injection heq with he ht
    subst he
    subst ht
    split
    · rename_i heq2; injection heq2 with hc _; exact absurd hc h71
    · rename_i heq2; injection heq2 with hc _; exact absurd hc h77
    · rename_i heq2; injection heq2 with hc _; exact absurd hc h107
    · rename_i heq2; injection heq2 with hc _; exact absurd hc h75
    · rename_i heq2; simp at heq2
    · rfl

/-- Witness for C2 at `n = 5` and a concrete bad suffix. -/
theorem claim_C2_witness :
    get_suffixed_size (renderDec 5 ++ [71]) = some (5 <<< 30) ∧
    get_suffixed_size (renderDec 5 ++ [120]) = none :=
  ⟨(claim_C2 5 (by decide)).2.2.2.2.1,
   (claim_C2 5 (by decide)).2.2.2.2.2 120 [] (by decide) (by decide) (by decide)
     (by decide) (by decide) (by decide)⟩



lemma driver_run (st : MainState) (sa : List (List Nat)) (E : Engine)
    (he : st.empty_run = 0) :
    driver st sa E true true =
      match userCode st sa E with
      | .procExit n tr => .exitProc n (driverConfigTrace st ++ tr)
      | .done true tr => .ret 1 (driverConfigTrace st ++ tr ++ teardownTrace)
      | .done false tr =>
          .ret 0 (driverConfigTrace st ++ tr
            ++ (if st.dump_memory ≠ 0 then [DEv.dumpMemoryUsage] else [])
            ++ teardownTrace) := by
  unfold driver
  rw [he]
  cases huc : userCode st sa E with
  | procExit n tr => simp [huc]
  | done b tr => cases b <;> simp [huc]

lemma userCode_head (st : MainState) (sa : List (List Nat)) (E : Engine) :
    (userCode st sa E).trace.head? = some (DEv.addHelpers sa) := by
  unfold userCode
  cases hri : runIncludes E st.module st.include_list with
  | procExit n tr => simp [UCResult.trace]
  | done b tr =>
    cases b with
    | true => simp [UCResult.trace]
    | false =>
      cases hex : st.expr with
      | some e =>
        simp only [hex]
        split
        · simp [UCResult.trace]
        · simp [UCResult.trace]
      | none =>
        simp only [hex]
        cases sa with
        | nil => simp [UCResult.trace]
        | cons f fs =>
          cases hef : eval_file E f st.module with
          | exitProc n => simp only [hef]; simp [UCResult.trace]
          | ret fl r tr2 =>
            simp only [hef]
            split
            · simp [UCResult.trace]
            · simp [UCResult.trace]

lemma parseLoop_stop_nonOption (fuel : Nat) (t : List Nat) (rest : List (List Nat))
    (ind : Nat) (st : MainState) (h : t.headD 0 ≠ 45) :
    parseLoop (fuel + 1) (t :: rest) ind st = .ok st ind := by
  rw [parseLoop, if_neg h]

lemma parseLoop_stop_dash (fuel : Nat) (rest : List (List Nat)) (ind : Nat)
    (st : MainState) : parseLoop (fuel + 1) ([45] :: rest) ind st = .ok st ind := by
  rw [parseLoop]
  simp

lemma parseLoop_stop_dashdash (fuel : Nat) (rest : List (List Nat)) (ind : Nat)
    (st : MainState) : parseLoop (fuel + 1) ([45, 45] :: rest) ind st = .ok st (ind + 1) := by
  rw [parseLoop]
  simp

lemma parseLoop_advance (fuel : Nat) (a : Nat) (arest : List Nat)
    (rest : List (List Nat)) (ind : Nat) (st : MainState)
    (hne : ¬ (a = 45 ∧ arest = [])) :
    (∃ c d h, parseLoop (fuel + 1) ((45 :: a :: arest) :: rest) ind st = .exit c d h) ∨
    (∃ k st', parseLoop (fuel + 1) ((45 :: a :: arest) :: rest) ind st =
        parseLoop fuel (rest.drop k) (ind + 1 + k) st') := by
  rw [parseLoop]
  simp only [List.headD_cons, List.tail_cons, if_pos rfl]
  by_cases ha : a = 45
  · subst ha
    rw [if_pos rfl]
    match arest with
    | [] => exact absurd ⟨rfl, rfl⟩ hne
    | b :: bs =>
      cases hsc : scanLong (b :: bs) rest st with
      | exitR c d h => exact Or.inl ⟨c, d, h, rfl⟩
      | cont k st' => exact Or.inr ⟨k, st', rfl⟩
  · rw [if_neg ha]
    cases hsc : scanShorts (a :: arest) rest st with
    | exitR c d h => exact Or.inl ⟨c, d, h, rfl⟩
    | cont k st' => exact Or.inr ⟨k, st', rfl⟩


lemma driver_addHelpers (st : MainState) (sa : List (List Nat)) (E : Engine)
    (he : st.empty_run = 0) :
    DEv.addHelpers sa ∈ (driver st sa E true true).trace := by
  have hmem : DEv.addHelpers sa ∈ (userCode st sa E).trace := by
    have hh := userCode_head st sa E
    cases htr : (userCode st sa E).trace with
    | nil => rw [htr] at hh; simp at hh
    | cons a tl =>
      rw [htr] at hh
      simp only [List.head?_cons, Option.some.injEq] at hh
      subst hh
      exact List.mem_cons_self _ _
  rw [driver_run st sa E he]
  cases huc : userCode st sa E with
  | procExit n tr =>
    rw [huc] at hmem
    simp only [UCResult.trace] at hmem
    simp [DriverResult.trace, hmem]
  | done b tr =>
    rw [huc] at hmem
    simp only [UCResult.trace] at hmem
    cases b <;> simp [DriverResult.trace, hmem]

/-- C4: the option scanner of `main` (1) stops, consuming nothing, at the
first token that does not begin with `-` (empty tokens included); (2)
stops, consuming nothing, at a bare `-`, which stays in the script argv;
(3) stops at `--`, consuming exactly that token; (4) on any other
`-`-token either exits the process or consumes the token plus `k`
argument tokens and continues scanning behind them; and (5) the tokens
published to the script are exactly `argv[optind..]`. -/
theorem claim_C4 :
    (∀ (fuel : Nat) (t : List Nat) (rest : List (List Nat)) (ind : Nat) (st : MainState),
      t.headD 0 ≠ 45 → parseLoop (fuel + 1) (t :: rest) ind st = .ok st ind) ∧
    (∀ (fuel : Nat) (rest : List (List Nat)) (ind : Nat) (st : MainState),
      parseLoop (fuel + 1) ([45] :: rest) ind st = .ok st ind) ∧
    (∀ (fuel : Nat) (rest : List (List Nat)) (ind : Nat) (st : MainState),
      parseLoop (fuel + 1) ([45, 45] :: rest) ind st = .ok st (ind + 1)) ∧
    (∀ (fuel a : Nat) (arest : List Nat) (rest : List (List Nat)) (ind : Nat)
        (st : MainState), ¬ (a = 45 ∧ arest = []) →
      (∃ c d h, parseLoop (fuel + 1) ((45 :: a :: arest) :: rest) ind st = .exit c d h) ∨
      (∃ k st', parseLoop (fuel + 1) ((45 :: a :: arest) :: rest) ind st =
          parseLoop fuel (rest.drop k) (ind + 1 + k) st')) ∧
    (∀ (argv : List (List Nat)) (E : Engine) (st : MainState) (ind : Nat),
      js_main_parse argv = .ok st ind → st.empty_run = 0 →
      DEv.addHelpers (argv.drop ind) ∈ (js_main argv E true true).trace) := by
  refine ⟨parseLoop_stop_nonOption, parseLoop_stop_dash, parseLoop_stop_dashdash,
    parseLoop_advance, ?_⟩
  intro argv E st ind hp he
  unfold js_main
  rw [hp]
  exact driver_addHelpers st (argv.drop ind) E he

/-- Witness for C4 at concrete invocations. -/
theorem claim_C4_witness :
    parseLoop 3 [[120]] 5 initMainState = .ok initMainState 5 ∧
    parseLoop 3 [[45]] 1 initMainState = .ok initMainState 1 ∧
    parseLoop 3 [[45, 45], [120]] 1 initMainState = .ok initMainState 2 ∧
    ((∃ c d h, parseLoop 3 [[45, 105]] 1 initMainState = .exit c d h) ∨
      (∃ k st', parseLoop 3 [[45, 105]] 1 initMainState =
          parseLoop 2 (([] : List (List Nat)).drop k) (1 + 1 + k) st')) ∧
    DEv.addHelpers [[120]] ∈
      (js_main [[113], [45, 105], [120]] engOk true true).trace :=
  ⟨claim_C4.1 2 [120] [] 5 initMainState (by decide),
   claim_C4.2.1 2 [] 1 initMainState,
   claim_C4.2.2.1 2 [[120]] 1 initMainState,
   claim_C4.2.2.2.1 2 105 [] [] 1 initMainState (by decide),
   claim_C4.2.2.2.2 [[113], [45, 105], [120]] engOk stC4w 2 (by decide) (by decide)⟩

lemma scanShorts_unknown (c : Nat) (arg : List Nat) (rest : List (List Nat))
    (st : MainState) (h : c ∉ recognizedShorts) :
    scanShorts (c :: arg) rest st = .exitR 1 true true := by
  simp only [recognizedShorts, List.mem_cons, List.not_mem_nil, or_false, not_or] at h
  obtain ⟨h1, h2, h3, h4, h5, h6, h7, h8, h9, h10⟩ := h
  simp only [scanShorts]
  simp [h1, h2, h3, h4, h5, h6, h7, h8, h9, h10]

lemma scanLong_unknown (l : List Nat) (rest : List (List Nat)) (st : MainState)
    (h : l ∉ recognizedLongs) :
    scanLong l rest st = .exitR 1 true true := by
  simp only [recognizedLongs, List.mem_cons, List.not_mem_nil, or_false, not_or] at h
  obtain ⟨h1, h2, h3, h4, h5, h6, h7, h8, h9, h10, h11, h12, h13, h14⟩ := h
  unfold scanLong
  simp [h1, h2, h3, h4, h5, h6, h7, h8, h9, h10, h11, h12, h13, h14]

/-- C5: an unrecognized short or long option prints a diagnostic to
standard error, invokes `help()`, and exits 1; a missing argument exits 2
for `-e`/`--eval` but 1 for `--include` (and `-I`), `--memory-limit` and
`--stack-size`; and appending a 33rd include file is a diagnostic plus
exit 1, for both `-I` and `--include`. -/
theorem claim_C5 :
    (∀ (c : Nat) (arg : List Nat) (rest : List (List Nat)) (st : MainState),
      c ∉ recognizedShorts → scanShorts (c :: arg) rest st = .exitR 1 true true) ∧
    (∀ (l : List Nat) (rest : List (List Nat)) (st : MainState),
      l ∉ recognizedLongs → scanLong l rest st = .exitR 1 true true) ∧
    (∀ st : MainState, scanShorts [101] [] st = .exitR 2 true false) ∧
    (∀ st : MainState, scanLong bEval [] st = .exitR 2 true false) ∧
    (∀ (arg : List Nat) (st : MainState), scanShorts (73 :: arg) [] st = .exitR 1 true false) ∧
    (∀ st : MainState, scanLong bInclude [] st = .exitR 1 true false) ∧
    (∀ st : MainState, scanLong bMemoryLimit [] st = .exitR 1 true false) ∧
    (∀ st : MainState, scanLong bStackSize [] st = .exitR 1 true false) ∧
    (∀ (arg a : List Nat) (rest : List (List Nat)) (st : MainState),
      32 ≤ st.include_list.length →
      scanShorts (73 :: arg) (a :: rest) st = .exitR 1 true false) ∧
    (∀ (a : List Nat) (rest : List (List Nat)) (st : MainState),
      32 ≤ st.include_list.length →
      scanLong bInclude (a :: rest) st = .exitR 1 true false) := by
  refine ⟨scanShorts_unknown, scanLong_unknown, ?_, ?_, ?_, ?_, ?_, ?_, ?_, ?_⟩
  · intro st; rfl
  · intro st; rfl
  · intro arg st; simp [scanShorts]
  · intro st; rfl
  · intro st; rfl
  · intro st; rfl
  · intro arg a rest st h32
    simp [scanShorts, h32]
  · intro a rest st h32
    unfold scanLong
    simp [bInclude, bHelp, bEval, h32]

/-- Witness for C5 at concrete inputs (`-z`, `--zeta`, and a full
include list). -/
theorem claim_C5_witness :
    scanShorts [122] [] initMainState = .exitR 1 true true ∧
    scanLong [122, 101, 116, 97] [] initMainState = .exitR 1 true true ∧
    scanShorts [101] [] initMainState = .exitR 2 true false ∧
    scanLong bEval [] initMainState = .exitR 2 true false ∧
    scanShorts [73] [] initMainState = .exitR 1 true false ∧
    scanLong bMemoryLimit [] initMainState = .exitR 1 true false ∧
    scanShorts [73] [[97]] stC5w = .exitR 1 true false ∧
    scanLong bInclude [[97]] stC5w = .exitR 1 true false :=
  ⟨claim_C5.1 122 [] [] initMainState (by decide),
   claim_C5.2.1 [122, 101, 116, 97] [] initMainState (by decide),
   claim_C5.2.2.1 initMainState,
   claim_C5.2.2.2.1 initMainState,
   claim_C5.2.2.2.2.1 [] initMainState,
   claim_C5.2.2.2.2.2.2.1 initMainState,
   claim_C5.2.2.2.2.2.2.2.2.1 [] [97] [] stC5w (by decide),
   claim_C5.2.2.2.2.2.2.2.2.2 [97] [] stC5w (by decide)⟩
/-! ### Eval pipeline: proofs (C6, C9) -/

/-- C6: in module mode `eval_buf` first calls `JS_Eval` with
`COMPILE_ONLY` added; if compilation raises, neither `import.meta`
stamping nor `JS_EvalFunction` happens; if it succeeds, the stamp (with
URL and `main=true`) and the execution and the await follow in that
order; in every mode the return value is −1 exactly on a failing result,
a failure dumps the current exception, and the evaluation result is
released exactly once, last. -/
theorem claim_C6 :
    (∀ (E : Engine) (buf fn : List Nat) (fl : Nat),
      fl &&& JS_EVAL_TYPE_MASK = JS_EVAL_TYPE_MODULE →
      ((eval_buf E buf fn fl).2.head? =
        some (.callEval buf fn (fl ||| JS_EVAL_FLAG_COMPILE_ONLY))) ∧
      (E.jsEval buf fn (fl ||| JS_EVAL_FLAG_COMPILE_ONLY) = .exception →
        EEv.callSetImportMeta true true ∉ (eval_buf E buf fn fl).2 ∧
        EEv.callEvalFunction ∉ (eval_buf E buf fn fl).2) ∧
      (∀ m, E.jsEval buf fn (fl ||| JS_EVAL_FLAG_COMPILE_ONLY) = .value m →
        (eval_buf E buf fn fl).2.take 4 =
          [.callEval buf fn (fl ||| JS_EVAL_FLAG_COMPILE_ONLY),
           .callSetImportMeta true true, .callEvalFunction, .callAwait]) ∧
      (E.awaitFn .exception = .exception →
        E.jsEval buf fn (fl ||| JS_EVAL_FLAG_COMPILE_ONLY) = .exception →
        (eval_buf E buf fn fl).1 = -1 ∧
        EEv.callDumpError ∈ (eval_buf E buf fn fl).2)) ∧
    (∀ (E : Engine) (buf fn : List Nat) (fl : Nat),
      ((eval_buf E buf fn fl).1 = -1 ∨ (eval_buf E buf fn fl).1 = 0) ∧
      ((eval_buf E buf fn fl).1 = -1 → EEv.callDumpError ∈ (eval_buf E buf fn fl).2) ∧
      ((eval_buf E buf fn fl).1 = 0 → EEv.callDumpError ∉ (eval_buf E buf fn fl).2) ∧
      ((eval_buf E buf fn fl).2.getLast? = some .callFreeValue) ∧
      ((eval_buf E buf fn fl).2.count .callFreeValue = 1)) := by
  constructor
  · intro E buf fn fl hm
    unfold eval_buf
    rw [if_pos hm]
    cases hc : E.jsEval buf fn (fl ||| JS_EVAL_FLAG_COMPILE_ONLY) with
    | exception =>
      refine ⟨?_, ?_, ?_, ?_⟩
      · simp only [evalBufFinish]
        split <;> simp
      · intro _
        constructor <;> (simp only [evalBufFinish]; split <;> simp)
      · intro m hm2
        simp at hm2
      · intro hawait _
        rw [hawait]
        simp [evalBufFinish]
    | value m =>
      refine ⟨?_, ?_, ?_, ?_⟩
      · simp only [evalBufFinish]
        split <;> simp
      · intro hexc
        simp at hexc
      · intro m2 hm2
        simp only [evalBufFinish]
        split <;> simp
      · intro _ hexc
        simp at hexc
  · intro E buf fn fl
    unfold eval_buf
    split
    · cases hc : E.jsEval buf fn (fl ||| JS_EVAL_FLAG_COMPILE_ONLY) with
      | exception =>
        by_cases hv : E.awaitFn JSVal.exception = JSVal.exception <;>
          simp [evalBufFinish, hv]
      | value m =>
        by_cases hv : E.awaitFn (E.evalFunction m) = JSVal.exception <;>
          simp [evalBufFinish, hv]
    · by_cases hv : E.jsEval buf fn fl = JSVal.exception <;>
        simp [evalBufFinish, hv]

/-- C9: when `js_load_file` succeeds, `eval_file` with autodetect
(`module < 0`) evaluates as a module exactly when the filename ends in
`".mjs"` or `JS_DetectModule` accepts the buffer; an explicit `-m`
(`module = 1`) or `--script` (`module = 0`) overrides the autodetection
regardless of filename and content. -/
theorem claim_C9 : ∀ (E : Engine) (f : List Nat) (module : Int) (buf : List Nat),
    E.loadFile f = some buf →
    (module < 0 →
      ∃ r tr, eval_file E f module =
        .ret (if has_suffix f bMjs || E.detect buf then JS_EVAL_TYPE_MODULE
              else JS_EVAL_TYPE_GLOBAL) r tr) ∧
    (0 ≤ module →
      ∃ r tr, eval_file E f module =
        .ret (if module ≠ 0 then JS_EVAL_TYPE_MODULE else JS_EVAL_TYPE_GLOBAL) r tr) := by
  intro E f module buf hload
  constructor
  · intro hlt
    cases hb : (has_suffix f bMjs || E.detect buf) with
    | true =>
      rcases heb : eval_buf E buf f JS_EVAL_TYPE_MODULE with ⟨r, tr⟩
      refine ⟨r, tr, ?_⟩
      simp only [eval_file, hload, if_pos hlt, hb]
      simp [heb]
    | false =>
      rcases heb : eval_buf E buf f JS_EVAL_TYPE_GLOBAL with ⟨r, tr⟩
      refine ⟨r, tr, ?_⟩
      simp only [eval_file, hload, if_pos hlt, hb]
      simp [heb]
  · intro hge
    have hnlt : ¬ module < 0 := by omega
    by_cases h0 : module = 0
    · subst h0
      rcases heb : eval_buf E buf f JS_EVAL_TYPE_GLOBAL with ⟨r, tr⟩
      refine ⟨r, tr, ?_⟩
      simp only [eval_file, hload, if_neg hnlt]
      simp [heb]
    · rcases heb : eval_buf E buf f JS_EVAL_TYPE_MODULE with ⟨r, tr⟩
      refine ⟨r, tr, ?_⟩
      simp only [eval_file, hload, if_neg hnlt]
      simp [heb, h0]

/-- Witness for C6 in module mode with a failing compile and, in script
mode, a succeeding eval. -/
theorem claim_C6_witness :
    ((eval_buf engIOFail [1] [2] JS_EVAL_TYPE_MODULE).2.head? =
      some (.callEval [1] [2] (JS_EVAL_TYPE_MODULE ||| JS_EVAL_FLAG_COMPILE_ONLY))) ∧
    (EEv.callSetImportMeta true true ∉ (eval_buf engIOFail [1] [2] JS_EVAL_TYPE_MODULE).2) ∧
    ((eval_buf engIOFail [1] [2] JS_EVAL_TYPE_MODULE).1 = -1) ∧
    ((eval_buf engOk [1] [2] JS_EVAL_TYPE_GLOBAL).2.count .callFreeValue = 1) :=
  ⟨((claim_C6.1 engIOFail [1] [2] JS_EVAL_TYPE_MODULE (by decide)).1),
   ((claim_C6.1 engIOFail [1] [2] JS_EVAL_TYPE_MODULE (by decide)).2.1 rfl).1,
   ((claim_C6.1 engIOFail [1] [2] JS_EVAL_TYPE_MODULE (by decide)).2.2.2 rfl rfl).1,
   (claim_C6.2 engOk [1] [2] JS_EVAL_TYPE_GLOBAL).2.2.2.2⟩

/-- Witness for C9: autodetect on a plain name, autodetect on an `.mjs`
name, and an explicit `--script` override on the `.mjs` name. -/
theorem claim_C9_witness :
    (∃ r tr, eval_file engOk [102] (-1) = .ret JS_EVAL_TYPE_GLOBAL r tr) ∧
    (∃ r tr, eval_file engOk bMjs (-1) = .ret JS_EVAL_TYPE_MODULE r tr) ∧
    (∃ r tr, eval_file engOk bMjs 0 = .ret JS_EVAL_TYPE_GLOBAL r tr) := by
  refine ⟨?_, ?_, ?_⟩
  · have h := (claim_C9 engOk [102] (-1) [] (by decide)).1 (by decide)
    simpa using h
  · have h := (claim_C9 engOk bMjs (-1) [] (by decide)).1 (by decide)
    simpa using h
  · have h := (claim_C9 engOk bMjs 0 [] (by decide)).2 (by decide)
    simpa using h



lemma eval_file_exit {E : Engine} {f : List Nat} {module : Int} {n : Nat}
    (h : eval_file E f module = .exitProc n) : n = 1 := by
  unfold eval_file at h
  cases hl : E.loadFile f with
  | none => rw [hl] at h; injection h with h1; exact h1.symm
  | some buf =>
    rw [hl] at h
    simp only at h
    rcases heb : eval_buf E buf f
        (if (if module < 0 then
              if (has_suffix f bMjs || E.detect buf) = true then 1 else 0
             else module) ≠ 0 then JS_EVAL_TYPE_MODULE else JS_EVAL_TYPE_GLOBAL)
      with ⟨r, tr⟩
    rw [heb] at h
    simp at h

lemma runIncludes_cases (E : Engine) (module : Int) :
    ∀ fs : List (List Nat),
    (runIncludes E module fs = .done false (fs.map DEv.evalInclude)) ∨
    (∃ j, j < fs.length ∧
      (runIncludes E module fs = .done true ((fs.take (j + 1)).map DEv.evalInclude) ∨
       runIncludes E module fs = .procExit 1 ((fs.take (j + 1)).map DEv.evalInclude))) := by
  intro fs
  induction fs with
  | nil => exact Or.inl rfl
  | cons f fs ih =>
    rw [runIncludes]
    cases hef : eval_file E f module with
    | exitProc n =>
      have hn := eval_file_exit hef
      subst hn
      exact Or.inr ⟨0, by simp, Or.inr (by simp)⟩
    | ret fl r tr =>
      dsimp only
      by_cases hr : r = 0
      · rw [if_neg (by simp [hr])]
        rcases ih with hok | ⟨j, hj, hcase⟩
        · rw [hok]
          exact Or.inl (by simp)
        · refine Or.inr ⟨j + 1, by simpa using Nat.succ_lt_succ hj, ?_⟩
          rcases hcase with hdone | hexit
          · rw [hdone]
            exact Or.inl (by simp)
          · rw [hexit]
            exact Or.inr (by simp)
      · rw [if_pos hr]
        exact Or.inr ⟨0, by simp, Or.inl (by simp)⟩

lemma runIncludes_events (E : Engine) (module : Int) :
    ∀ (fs : List (List Nat)) (e : DEv), e ∈ (runIncludes E module fs).trace →
      ∃ f, e = DEv.evalInclude f := by
  intro fs
  induction fs with
  | nil => intro e he; simp [runIncludes, UCResult.trace] at he
  | cons f fs ih =>
    intro e he
    rw [runIncludes] at he
    cases hef : eval_file E f module with
    | exitProc n =>
      rw [hef] at he
      simp only [UCResult.trace, List.mem_singleton] at he
      exact ⟨f, he⟩
    | ret fl r tr =>
      rw [hef] at he
      dsimp only at he
      by_cases hr : r = 0
      · rw [if_neg (by simp [hr])] at he
        cases hri : runIncludes E module fs with
        | procExit n2 tr2 =>
          rw [hri] at he
          simp only [UCResult.trace, List.mem_cons] at he
          rcases he with he | he
          · exact ⟨f, he⟩
          · exact ih e (by rw [hri]; exact he)
        | done b2 tr2 =>
          rw [hri] at he
          simp only [UCResult.trace, List.mem_cons] at he
          rcases he with he | he
          · exact ⟨f, he⟩
          · exact ih e (by rw [hri]; exact he)
      · rw [if_pos hr] at he
        simp only [UCResult.trace, List.mem_singleton] at he
        exact ⟨f, he⟩

lemma runIncludes_exit_one {E : Engine} {module : Int} {fs : List (List Nat)}
    {n : Nat} {tr : List DEv} (h : runIncludes E module fs = .procExit n tr) :
    n = 1 := by
  rcases runIncludes_cases E module fs with hok | ⟨j, hj, hcase⟩
  · rw [hok] at h; cases h
  · rcases hcase with hdone | hexit
    · rw [hdone] at h; cases h
    · rw [hexit] at h; injection h with h1 h2; exact h1.symm

lemma count_zero_of_all {l : List DEv} {p : DEv → Bool} {e : DEv}
    (hall : l.all p = true) (he : p e = false) : l.count e = 0 := by
  rw [List.count_eq_zero]
  intro hmem
  have htrue := List.all_eq_true.mp hall e hmem
  rw [he] at htrue
  cases htrue

lemma replTail_all (i : Nat) : (replTail i).all isUserEv = true := by
  unfold replTail
  by_cases hi : i ≠ 0
  · rw [if_pos hi]; rfl
  · rw [if_neg hi]; rfl

lemma stdPart_all (b : Bool) :
    ((if b = true then [DEv.evalStd] else []) : List DEv).all isUserEv = true := by
  cases b <;> rfl

lemma runIncludes_all (E : Engine) (module : Int) :
    ∀ fs : List (List Nat), ((runIncludes E module fs).trace).all isUserEv = true := by
  intro fs
  induction fs with
  | nil => rfl
  | cons f fs ih =>
    rw [runIncludes]
    cases hef : eval_file E f module with
    | exitProc n => rfl
    | ret fl r tr =>
      dsimp only
      by_cases hr : r = 0
      · rw [if_neg (by simp [hr])]
        cases hri : runIncludes E module fs with
        | procExit n2 tr2 =>
          rw [hri] at ih
          simp only [UCResult.trace] at ih ⊢
          simp [List.all_cons, ih, isUserEv]
        | done b2 tr2 =>
          rw [hri] at ih
          simp only [UCResult.trace] at ih ⊢
          simp [List.all_cons, ih, isUserEv]
      · rw [if_pos hr]; rfl

lemma userCode_all (st : MainState) (sa : List (List Nat)) (E : Engine) :
    ((userCode st sa E).trace).all isUserEv = true := by
  unfold userCode
  have hstd := stdPart_all st.load_std
  cases hri : runIncludes E st.module st.include_list with
  | procExit n tr =>
    have hinc := runIncludes_all E st.module st.include_list
    rw [hri] at hinc
    simp only [UCResult.trace] at hinc ⊢
    simp [List.all_append, hstd, hinc, isUserEv]
  | done b tr =>
    have hinc := runIncludes_all E st.module st.include_list
    rw [hri] at hinc
    simp only [UCResult.trace] at hinc
    cases b with
    | true => simp only [UCResult.trace]; simp [List.all_append, hstd, hinc, isUserEv]
    | false =>
      cases hex : st.expr with
      | some ex =>
        rcases heb : eval_buf E ex bCmdline 0 with ⟨r, tr0⟩
        dsimp only
        rw [heb]
        dsimp only
        by_cases hr : r = 0
        · rw [if_neg (by simp [hr])]
          simp only [UCResult.trace]
          simp [List.all_append, hstd, hinc, isUserEv, replTail_all]
        · rw [if_pos hr]
          simp only [UCResult.trace]
          simp [List.all_append, hstd, hinc, isUserEv]
      | none =>
        cases sa with
        | nil =>
          simp only [UCResult.trace]
          simp [List.all_append, hstd, hinc, isUserEv, replTail_all]
        | cons f fs =>
          cases hef : eval_file E f st.module with
          | exitProc n =>
            dsimp only
            rw [hef]
            dsimp only
            simp only [UCResult.trace]
            simp [List.all_append, hstd, hinc, isUserEv]
          | ret fl r tr0 =>
            dsimp only
            rw [hef]
            dsimp only
            by_cases hr : r = 0
            · rw [if_neg (by simp [hr])]
              simp only [UCResult.trace]
              simp [List.all_append, hstd, hinc, isUserEv, replTail_all]
            · rw [if_pos hr]
              simp only [UCResult.trace]
              simp [List.all_append, hstd, hinc, isUserEv]

lemma configTrace_all (st : MainState) :
    (driverConfigTrace st).all isConfigEv = true := by
  unfold driverConfigTrace driverCtxTrace
  by_cases h1 : st.memory_limit ≠ 0 <;> by_cases h2 : st.stack_size ≠ 0 <;>
    by_cases h3 : st.dump_unhandled_promise_rejection = true <;>
      simp [h1, h2, h3, List.all_append, isConfigEv]

lemma userCode_procExit_one {st : MainState} {sa : List (List Nat)} {E : Engine}
    {n : Nat} {tr : List DEv} (h : userCode st sa E = .procExit n tr) : n = 1 := by
  unfold userCode at h
  cases hri : runIncludes E st.module st.include_list with
  | procExit n2 tr2 =>
    rw [hri] at h
    injection h with h1 h2
    exact h1 ▸ runIncludes_exit_one hri
  | done b tr2 =>
    rw [hri] at h
    cases b with
    | true => cases h
    | false =>
      cases hex : st.expr with
      | some ex =>
        rw [hex] at h
        rcases heb : eval_buf E ex bCmdline 0 with ⟨r, tr0⟩
        dsimp only at h
        rw [heb] at h
        dsimp only at h
        split at h <;> cases h
      | none =>
        rw [hex] at h
        cases sa with
        | nil => cases h
        | cons f fs =>
          cases hef : eval_file E f st.module with
          | exitProc n2 =>
            dsimp only at h
            rw [hef] at h
            dsimp only at h
            injection h with h1 h2
            exact h1 ▸ eval_file_exit hef
          | ret fl r tr0 =>
            dsimp only at h
            rw [hef] at h
            dsimp only at h
            split at h <;> cases h

lemma driver_empty (st : MainState) (sa : List (List Nat)) (E : Engine)
    (he : st.empty_run ≠ 0) :
    driver st sa E true true =
      .ret 0 (driverConfigTrace st
        ++ (if st.dump_memory ≠ 0 then [DEv.dumpMemoryUsage] else [])
        ++ teardownTrace
        ++ (if st.dump_memory ≠ 0 then benchTrace else [])) := by
  unfold driver
  rw [if_pos he]
  simp [he]

lemma count_ite_dump (e : DEv) (c : Prop) [Decidable c] (hne : e ≠ DEv.dumpMemoryUsage) :
    ((if c then [DEv.dumpMemoryUsage] else []) : List DEv).count e = 0 := by
  by_cases h : c <;> simp [h, List.count_singleton, hne]

/-- C3 counterexample: `qjs -I f` where loading `f` fails exits the
process with status 1 from inside `eval_file` without calling the
context or runtime destructor (or releasing the handlers). -/
theorem claim_C3_counterexample :
    (∃ tr, js_main [[113], [45, 73], [102]] engIOFail true true = .exitProc 1 tr) ∧
    ((js_main [[113], [45, 73], [102]] engIOFail true true).trace.count
        (DEv.freeContext true) = 0) ∧
    ((js_main [[113], [45, 73], [102]] engIOFail true true).trace.count
        (DEv.freeRuntime true) = 0) ∧
    ((js_main [[113], [45, 73], [102]] engIOFail true true).trace.count
        DEv.freeHandlers = 0) := by
  refine ⟨⟨(js_main [[113], [45, 73], [102]] engIOFail true true).trace, ?_⟩, ?_, ?_, ?_⟩ <;>
    decide

set_option maxRecDepth 16384 in
/-- C3 (amended): when runtime and context creation succeed and the
user-code section does not exit the process, every driver run — success
or eval failure — releases handlers, context and runtime exactly once
each, in that order (context strictly before runtime); an I/O failure
while reading an include or script file instead exits the process with
status 1 without calling any of the three destructors. -/
theorem claim_C3 :
    (∀ (st : MainState) (sa : List (List Nat)) (E : Engine),
      (userCode st sa E).isProcExit = false →
      ∃ code tr, driver st sa E true true = .ret code tr ∧
        tr.count (DEv.freeContext true) = 1 ∧
        tr.count (DEv.freeRuntime true) = 1 ∧
        tr.count DEv.freeHandlers = 1 ∧
        ∃ a b, tr = a ++ teardownTrace ++ b) ∧
    (∀ (st : MainState) (sa : List (List Nat)) (E : Engine) (n : Nat) (tr' : List DEv),
      st.empty_run = 0 → userCode st sa E = .procExit n tr' →
      n = 1 ∧
      ∃ tr, driver st sa E true true = .exitProc 1 tr ∧
        tr.count (DEv.freeContext true) = 0 ∧
        tr.count (DEv.freeRuntime true) = 0 ∧
        tr.count DEv.freeHandlers = 0) := by
  have hcfg : ∀ (st : MainState) (e : DEv), isConfigEv e = false →
      (driverConfigTrace st).count e = 0 :=
    fun st e he => count_zero_of_all (configTrace_all st) he
  have ht1 : teardownTrace.count (DEv.freeContext true) = 1 := by decide
  have ht2 : teardownTrace.count (DEv.freeRuntime true) = 1 := by decide
  have ht3 : teardownTrace.count DEv.freeHandlers = 1 := by decide
  constructor
  · intro st sa E hnoexit
    have hc1 := hcfg st (DEv.freeContext true) (by decide)
    have hc2 := hcfg st (DEv.freeRuntime true) (by decide)
    have hc3 := hcfg st DEv.freeHandlers (by decide)
    by_cases hemp : st.empty_run = 0
    · rw [driver_run st sa E hemp]
      cases huc : userCode st sa E with
      | procExit n tr =>
        rw [huc] at hnoexit
        simp [UCResult.isProcExit] at hnoexit
      | done b tr =>
        have hall := userCode_all st sa E
        rw [huc] at hall
        simp only [UCResult.trace] at hall
        have hu1 := count_zero_of_all hall (e := DEv.freeContext true) (by decide)
        have hu2 := count_zero_of_all hall (e := DEv.freeRuntime true) (by decide)
        have hu3 := count_zero_of_all hall (e := DEv.freeHandlers) (by decide)
        cases b with
        | true =>
          dsimp only
          refine ⟨1, _, rfl, ?_, ?_, ?_, ⟨driverConfigTrace st ++ tr, [], by simp⟩⟩ <;>
            simp [List.count_append, hc1, hc2, hc3, hu1, hu2, hu3, ht1, ht2, ht3]
        | false =>
          dsimp only
          refine ⟨0, _, rfl, ?_, ?_, ?_,
            ⟨driverConfigTrace st ++ tr
              ++ (if st.dump_memory ≠ 0 then [DEv.dumpMemoryUsage] else []), [],
              by simp⟩⟩ <;>
          · simp only [List.count_append, hc1, hc2, hc3, hu1, hu2, hu3, ht1, ht2, ht3]
            by_cases hd : st.dump_memory = 0 <;> simp [hd]
    · rw [driver_empty st sa E hemp]
      refine ⟨0, _, rfl, ?_, ?_, ?_,
        ⟨driverConfigTrace st
          ++ (if st.dump_memory ≠ 0 then [DEv.dumpMemoryUsage] else []),
          (if st.dump_memory ≠ 0 then benchTrace else []), by simp⟩⟩ <;>
      · simp only [List.count_append, hc1, hc2, hc3, ht1, ht2, ht3]
        by_cases hd : st.dump_memory = 0 <;>
          simp [hd, show benchTrace.count (DEv.freeContext true) = 0 by decide,
            show benchTrace.count (DEv.freeRuntime true) = 0 by decide,
            show benchTrace.count DEv.freeHandlers = 0 by decide]
  · intro st sa E n tr' hemp hexit
    have hc1 := hcfg st (DEv.freeContext true) (by decide)
    have hc2 := hcfg st (DEv.freeRuntime true) (by decide)
    have hc3 := hcfg st DEv.freeHandlers (by decide)
    have hn := userCode_procExit_one hexit
    subst hn
    refine ⟨rfl, ?_⟩
    rw [driver_run st sa E hemp, hexit]
    have hall := userCode_all st sa E
    rw [hexit] at hall
    simp only [UCResult.trace] at hall
    have hu1 := count_zero_of_all hall (e := DEv.freeContext true) (by decide)
    have hu2 := count_zero_of_all hall (e := DEv.freeRuntime true) (by decide)
    have hu3 := count_zero_of_all hall (e := DEv.freeHandlers) (by decide)
    dsimp only
    exact ⟨_, rfl,
      by simp [List.count_append, hc1, hu1],
      by simp [List.count_append, hc2, hu2],
      by simp [List.count_append, hc3, hu3]⟩

/-- Witness for C3: a failing eval (`-e` on an engine that throws)
tears down exactly once, and a concrete I/O failure skips teardown. -/
theorem claim_C3_witness :
    (∃ code tr, driver stC3w [] engIOFail true true = .ret code tr ∧
      tr.count (DEv.freeContext true) = 1 ∧
      tr.count (DEv.freeRuntime true) = 1 ∧
      tr.count DEv.freeHandlers = 1 ∧
      ∃ a b, tr = a ++ teardownTrace ++ b) ∧
    ((1 : Nat) = 1 ∧
      ∃ tr, driver stC3x [] engIOFail true true = .exitProc 1 tr ∧
        tr.count (DEv.freeContext true) = 0 ∧
        tr.count (DEv.freeRuntime true) = 0 ∧
        tr.count DEv.freeHandlers = 0) :=
  ⟨claim_C3.1 stC3w [] engIOFail (by decide),
   claim_C3.2 stC3x [] engIOFail 1
     [DEv.addHelpers [], DEv.evalInclude [102]] rfl (by decide)⟩

/-- C7 counterexample: for `qjs -i -e 1` the trace contains both the
`-e` expression evaluation and the interactive REPL, so it is not the
case that exactly one of the expression, the script file and the REPL
runs. -/
theorem claim_C7_counterexample :
    ((js_main [[113], [45, 105], [45, 101], [49]] engOk true true).trace.count
        (DEv.evalExpr [49]) = 1) ∧
    ((js_main [[113], [45, 105], [45, 101], [49]] engOk true true).trace.count
        DEv.evalRepl = 1) :=
  ⟨by decide, by decide⟩

/-- C7 (amended): in the user-code section the helpers and the optional
`--std` module come first, then the include files in listed order, then
the main-input tail: a failing include truncates the include list at the
failure and short-circuits everything after it (ordinary eval failure or
process exit 1 on I/O failure), while after a successful include run
exactly one main input runs — the `-e` expression, the script file, or
the forced-interactive REPL when neither is present — and the REPL (when
interactive is in effect) runs only after it; an eval failure anywhere
makes `main` return 1, and an I/O-failure process exit has status 1. -/
theorem claim_C7 (st : MainState) (sa : List (List Nat)) (E : Engine) :
    (st.empty_run = 0 → ∀ tr, userCode st sa E = UCResult.done true tr →
      driver st sa E true true =
        DriverResult.ret 1 (driverConfigTrace st ++ tr ++ teardownTrace)) ∧
    (∀ n tr, userCode st sa E = UCResult.procExit n tr → n = 1) ∧
    ((∃ j, j < st.include_list.length ∧
        (userCode st sa E =
           UCResult.done true
             ([DEv.addHelpers sa]
               ++ (if st.load_std then [DEv.evalStd] else [])
               ++ (st.include_list.take (j + 1)).map DEv.evalInclude) ∨
         userCode st sa E =
           UCResult.procExit 1
             ([DEv.addHelpers sa]
               ++ (if st.load_std then [DEv.evalStd] else [])
               ++ (st.include_list.take (j + 1)).map DEv.evalInclude))) ∨
     (∃ mainTail : List DEv,
        (userCode st sa E).trace
          = [DEv.addHelpers sa]
              ++ (if st.load_std then [DEv.evalStd] else [])
              ++ st.include_list.map DEv.evalInclude ++ mainTail ∧
        ((∃ e, st.expr = some e ∧
            (mainTail = [DEv.evalExpr e] ∨
             mainTail = DEv.evalExpr e :: replTail st.interactive)) ∨
         (st.expr = none ∧ sa = [] ∧ mainTail = replTail 1) ∨
         (∃ f rest, st.expr = none ∧ sa = f :: rest ∧
            (mainTail = [DEv.evalScript f] ∨
             mainTail = DEv.evalScript f :: replTail st.interactive))))) := by
  refine ⟨?_, ?_, ?_⟩
  · intro hemp tr h
    rw [driver_run st sa E hemp, h]
  · intro n tr h
    exact userCode_procExit_one h
  · rcases runIncludes_cases E st.module st.include_list with hok | ⟨j, hj, hdone | hexit⟩
    · refine Or.inr ?_
      unfold userCode
      rw [hok]
      dsimp only
      cases hex : st.expr with
      | some ex =>
        rcases heb : eval_buf E ex bCmdline 0 with ⟨r, tr0⟩
        dsimp only
        rw [heb]
        dsimp only
        by_cases hr : r = 0
        · rw [if_neg (by simp [hr])]
          refine ⟨DEv.evalExpr ex :: replTail st.interactive, ?_,
            Or.inl ⟨ex, rfl, Or.inr rfl⟩⟩
          simp [UCResult.trace]
        · rw [if_pos hr]
          refine ⟨[DEv.evalExpr ex], ?_, Or.inl ⟨ex, rfl, Or.inl rfl⟩⟩
          simp [UCResult.trace]
      | none =>
        cases sa with
        | nil =>
          refine ⟨replTail 1, ?_, Or.inr (Or.inl ⟨rfl, rfl, rfl⟩)⟩
          simp [UCResult.trace]
        | cons f fs =>
          cases hef : eval_file E f st.module with
          | exitProc n =>
            dsimp only
            rw [hef]
            dsimp only
            refine ⟨[DEv.evalScript f], ?_,
              Or.inr (Or.inr ⟨f, fs, rfl, rfl, Or.inl rfl⟩)⟩
            simp [UCResult.trace]
          | ret fl r tr0 =>
            dsimp only
            rw [hef]
            dsimp only
            by_cases hr : r = 0
            · rw [if_neg (by simp [hr])]
              refine ⟨DEv.evalScript f :: replTail st.interactive, ?_,
                Or.inr (Or.inr ⟨f, fs, rfl, rfl, Or.inr rfl⟩)⟩
              simp [UCResult.trace]
            · rw [if_pos hr]
              refine ⟨[DEv.evalScript f], ?_,
                Or.inr (Or.inr ⟨f, fs, rfl, rfl, Or.inl rfl⟩)⟩
              simp [UCResult.trace]
    · refine Or.inl ⟨j, hj, Or.inl ?_⟩
      unfold userCode
      rw [hdone]
    · refine Or.inl ⟨j, hj, Or.inr ?_⟩
      unfold userCode
      rw [hexit]

/-- Witness for C7: a failing `-e` expression makes `main` return 1, and
an I/O failure on an include exits with status 1. -/
theorem claim_C7_witness :
    (driver stC3w [] engIOFail true true =
       DriverResult.ret 1 (driverConfigTrace stC3w
         ++ [DEv.addHelpers [], DEv.evalExpr [49]] ++ teardownTrace)) ∧
    ((1 : Nat) = 1) :=
  ⟨(claim_C7 stC3w [] engIOFail).1 rfl
      [DEv.addHelpers [], DEv.evalExpr [49]] (by decide),
   (claim_C7 stC3x [] engIOFail).2.1 1
      [DEv.addHelpers [], DEv.evalInclude [102]] (by decide)⟩
end Qjs
